import Mathlib

/-
  Shallow embedding of the Custom Sliders extension (src/src/index.ts,
  current multi-collection version) together with theorems checking the
  natural-language specification against it.

  External collaborators of the code (the host's DOM, the yaml npm
  package, JavaScript builtins such as parseFloat and JSON.parse) are
  modelled only to the extent the spec describes their interface; each
  such definition carries a doc comment saying what it models.
-/

namespace CustomSliders

/-- JavaScript numbers as stored in a slider's `value` field: either NaN
or an exact rational (the values reachable through the code are exact). -/
inductive JNum where
  | nan : JNum
  | num (q : ℚ) : JNum
deriving DecidableEq, Repr, Inhabited

/-- Model of JavaScript `isNaN` on a slider value. -/
def JNum.isNaN : JNum → Bool
  | .nan => true
  | .num _ => false

/-- Model of the JavaScript `<` comparison on numbers: any comparison
involving NaN is false. -/
def JNum.jlt : JNum → JNum → Bool
  | .num a, .num b => decide (a < b)
  | _, _ => false

/-- The `SliderModel` interface of src/src/index.ts: `min`, `max`, `step`
are kept as strings, `value` is a number, `enabled` a boolean. -/
structure SliderModel where
  name : String
  property : String
  min : String
  max : String
  step : String
  value : JNum
  enabled : Bool
deriving DecidableEq, Repr, Inhabited

/-- The `SliderCollection` interface of src/src/index.ts. -/
structure SliderCollection where
  active : Bool
  name : String
  sliders : List SliderModel
  presets : List String
deriving DecidableEq, Repr, Inhabited

/-- Element access with the collection default, mirroring JavaScript array
indexing at indices that the code has already checked to be in range. -/
def getC (cs : List SliderCollection) (i : Nat) : SliderCollection :=
  cs.getD i default

/-- In-place mutation of the element at one index, mirroring a JavaScript
assignment through a reference obtained by `find` / direct indexing. -/
def modifyAt {α : Type} : List α → Nat → (α → α) → List α
  | [], _, _ => []
  | x :: xs, 0, f => f x :: xs
  | x :: xs, n + 1, f => x :: modifyAt xs n f

/-- Index of the first element satisfying a predicate, mirroring
`Array.prototype.find` when the found object is later mutated in place
(distinct array slots always hold distinct objects here, so the object
identity used by the code coincides with the index). -/
def firstIdx {α : Type} (p : α → Bool) : List α → Option Nat
  | [] => none
  | x :: xs => if p x then some 0 else (firstIdx p xs).map (· + 1)

/-- Number of collections whose `active` flag is set. -/
def countActive (cs : List SliderCollection) : ℕ :=
  (cs.filter (·.active)).length

/-- The `collections.forEach(c => c.active = false)` loop used by
create/import. -/
def deactivateAll (cs : List SliderCollection) : List SliderCollection :=
  cs.map fun c => { c with active := false }

/-- The default collection of `defaultSettings` in src/src/index.ts. -/
def defaultCollection : SliderCollection :=
  { active := true, name := "Default", sliders := [], presets := [] }

/-- The `defaultSettings.collections` list. -/
def defaultCollections : List SliderCollection := [defaultCollection]

/-- The module's slot inside the host-owned settings object: `none` models
an absent `customSliders` namespace, and inside it `collections := none`
models an absent `collections` key (backfilled after upgrades). -/
structure StoredSettings where
  collections : Option (List SliderCollection)
deriving DecidableEq, Repr

/-- Embedding of `getSettings` (src/src/index.ts:366-395): install the
default tree when the namespace is absent, backfill the `collections` key,
re-insert the default collection when the list is empty, and activate the
first collection when none is active. -/
def getSettings (g : Option StoredSettings) : List SliderCollection :=
  let s :=
    match g with
    | none => defaultCollections
    | some r =>
      match r.collections with
      | none => defaultCollections
      | some cs => cs
  let s₁ := if s.isEmpty then s ++ [defaultCollection] else s
  if s₁.any (·.active) then s₁
  else modifyAt s₁ 0 fun c => { c with active := true }

/-- Embedding of `createCollection` (src/src/index.ts:533-555); the
`name` argument is the user's prompt response, with `""` standing for an
empty or cancelled prompt (the falsy early return). -/
def createCollection (cs : List SliderCollection) (name : String) :
    List SliderCollection :=
  if name = "" then cs
  else if cs.any (·.name == name) then cs
  else
    deactivateAll cs ++
      [{ active := true, name := name, sliders := [], presets := [] }]

/-- Embedding of `deleteCollection` (src/src/index.ts:509-531); `confirm`
is the user's answer to the confirmation popup. -/
def deleteCollection (cs : List SliderCollection) (confirm : Bool) :
    List SliderCollection :=
  if cs.length = 1 then cs
  else
    match firstIdx (·.active) cs with
    | none => cs
    | some i =>
      if !confirm then cs
      else
        let cs' := cs.eraseIdx i
        modifyAt cs' 0 fun c => { c with active := true }

/-- Embedding of the collection-dropdown `change` handler
(src/src/index.ts:429-436): every collection's `active` flag becomes the
comparison of its name with the selected value. -/
def selectCollection (cs : List SliderCollection) (sel : String) :
    List SliderCollection :=
  cs.map fun c => { c with active := c.name == sel }

/-- Outcome of the import flow: the settings afterwards, whether
`toastr.error` was shown, and whether a collection was actually added. -/
structure ImportOutcome where
  settings : List SliderCollection
  error : Bool
  imported : Bool
deriving DecidableEq, Repr

/-- Embedding of `processImport` (src/src/index.ts:481-507); `newName` is
the prompt response, `""` standing for empty/cancelled. -/
def processImport (cs : List SliderCollection) (newName : String)
    (sliders : List SliderModel) : ImportOutcome :=
  if newName = "" then ⟨cs, false, false⟩
  else if cs.any (·.name == newName) then ⟨cs, false, false⟩
  else
    ⟨deactivateAll cs ++
      [{ active := true, name := newName, sliders := sliders, presets := [] }],
      false, true⟩

/-- The state change performed by a successful import. -/
def importCollection (cs : List SliderCollection) (name : String)
    (sliders : List SliderModel) : List SliderCollection :=
  (processImport cs name sliders).settings

/-- Top-level JSON value shapes distinguished by the import `change`
handler: `JSON.parse` throwing models as `none`, a parsed top-level array
as `.arr`, any other successfully parsed value as `.nonArr`. -/
inductive ParsedJson where
  | arr (sliders : List SliderModel) : ParsedJson
  | nonArr : ParsedJson
deriving DecidableEq, Repr

/-- Embedding of the import-file `change` handler
(src/src/index.ts:455-478): malformed JSON (`parsed = none`) hits the
catch branch, a non-array payload hits the `Array.isArray` guard, both
show `toastr.error` and return; an array is handed to `processImport`
with the prompt response `promptName`. -/
def importFileChange (cs : List SliderCollection) (parsed : Option ParsedJson)
    (promptName : String) : ImportOutcome :=
  match parsed with
  | none => ⟨cs, true, false⟩
  | some .nonArr => ⟨cs, true, false⟩
  | some (.arr sliders) => processImport cs promptName sliders

/-- Embedding of the `OAI_PRESET_CHANGED_AFTER` handler
(src/src/index.ts:868-883): when the newly selected preset is bound to a
collection different from the active one, that collection becomes active
and the previously active one is deactivated. -/
def presetChanged (cs : List SliderCollection) (P : String) :
    List SliderCollection :=
  match firstIdx (·.active) cs with
  | none => cs
  | some ai =>
    match firstIdx (fun c => decide (P ∈ c.presets)) cs with
    | none => cs
    | some pi =>
      if pi = ai then cs
      else
        modifyAt (modifyAt cs pi fun c => { c with active := true }) ai
          fun c => { c with active := false }

/-- Result of `bindToPreset`: the settings afterwards and whether the
operation reached the trailing `saveSettingsDebounced()` /
`renderSliderConfigs(settings)` pair (the early returns skip both). -/
structure BindOutcome where
  settings : List SliderCollection
  persisted : Bool
deriving DecidableEq, Repr

/-- Embedding of `bindToPreset` (src/src/index.ts:557-582); `P` is the
currently selected preset name, `""` standing for the falsy early
return. `splice(indexOf(P), 1)` removes the first occurrence, `push`
appends. -/
def bindToPreset (cs : List SliderCollection) (P : String) : BindOutcome :=
  if P = "" then ⟨cs, false⟩
  else
    match firstIdx (·.active) cs with
    | none => ⟨cs, false⟩
    | some ai =>
      match firstIdx (fun c => decide (P ∈ c.presets)) cs with
      | none =>
        ⟨modifyAt cs ai fun c => { c with presets := c.presets ++ [P] },
          true⟩
      | some pi =>
        let cs₁ := modifyAt cs pi fun c => { c with presets := c.presets.erase P }
        if pi = ai then ⟨cs₁, true⟩
        else
          ⟨modifyAt cs₁ ai fun c => { c with presets := c.presets ++ [P] },
            true⟩

/-- Digit-string to natural number (helper for the number parsers). -/
def digitsToNat (cs : List Char) : ℕ :=
  cs.foldl (fun n c => n * 10 + (c.toNat - 48)) 0

/-- Modelled from the spec: strict parsing of a whole decimal scalar (an
optional sign, digits, an optional fractional part), as the external yaml
package reads numeric values out of the "key:value textual notation" the
spec describes for the body-merge field. The rational is assembled with
`mkRat` over integer arithmetic. -/
def parseNumStrict (cs : List Char) : Option ℚ :=
  let (neg, rest) :=
    match cs with
    | '-' :: r => (true, r)
    | r => (false, r)
  let ip := rest.takeWhile (·.isDigit)
  let rest₂ := rest.drop ip.length
  match rest₂ with
  | [] =>
    if ip.isEmpty then none
    else
      some (mkRat (if neg then -(digitsToNat ip : Int)
        else (digitsToNat ip : Int)) 1)
  | '.' :: fp =>
    if fp.all (·.isDigit) && !(ip.isEmpty && fp.isEmpty) then
      let n : ℕ := digitsToNat ip * 10 ^ fp.length + digitsToNat fp
      some (mkRat (if neg then -(n : Int) else (n : Int)) (10 ^ fp.length))
    else none
  | _ => none

/-- Modelled from the spec: JavaScript's `parseFloat` builtin (external to
the repository), on the plain-decimal fragment the sliders' `min`/`max`
strings use: optional sign, digits, optional fractional part, read as the
longest valid prefix; NaN when no digit is consumed. -/
def parseFloat (s : String) : JNum :=
  let (neg, rest) :=
    match s.data with
    | '-' :: r => (true, r)
    | '+' :: r => (false, r)
    | r => (false, r)
  let ip := rest.takeWhile (·.isDigit)
  let rest₂ := rest.drop ip.length
  let fp :=
    match rest₂ with
    | '.' :: r => r.takeWhile (·.isDigit)
    | _ => []
  if ip.isEmpty && fp.isEmpty then .nan
  else
    let n : ℕ := digitsToNat ip * 10 ^ fp.length + digitsToNat fp
    .num (mkRat (if neg then -(n : Int) else (n : Int)) (10 ^ fp.length))

/-- Modelled from the spec: the shortest-decimal rendering of a JavaScript
number (`Number.prototype.toString`, used by the yaml serializer), defined
for the terminating decimals the sliders produce. -/
def ratToString (q : ℚ) : String :=
  if q.den = 1 then toString q.num
  else
    match (List.range 65).find? (fun e => q.den ∣ 10 ^ e) with
    | none => toString q.num ++ "/" ++ toString q.den
    | some e =>
      let scaled : ℕ := q.num.natAbs * (10 ^ e / q.den)
      let ds := toString scaled
      let ds' :=
        if ds.length ≤ e then
          String.mk (List.replicate (e + 1 - ds.length) '0') ++ ds
        else ds
      (if q.num < 0 then "-" else "") ++
        ds'.dropRight e ++ "." ++ ds'.takeRight e

/-- Rendering of a slider value as the yaml serializer would print it. -/
def jnumToString : JNum → String
  | .nan => ".nan"
  | .num q => ratToString q

/-- JavaScript plain objects with number values (`Record<string, number>`):
an insertion-ordered association list with unique keys. -/
abbrev Obj := List (String × JNum)

/-- Model of `obj[k] = v` on a JavaScript object: replace in place when the
key exists, append otherwise. -/
def objSet : Obj → String → JNum → Obj
  | [], k, v => [(k, v)]
  | (k', v') :: rest, k, v =>
    if k' = k then (k, v) :: rest else (k', v') :: objSet rest k v

/-- Model of reading `obj[k]`. -/
def objLookup : Obj → String → Option JNum
  | [], _ => none
  | (k', v) :: rest, k => if k' = k then some v else objLookup rest k

/-- Model of `Object.assign(target, src)`: assign every entry of `src`
into `target`, in order. -/
def objAssign (target : Obj) : Obj → Obj
  | [] => target
  | (k, v) :: rest => objAssign (objSet target k v) rest

/-- Split a character list at newline characters (the semantics of
`splitOn "\n"`). -/
def splitLines : List Char → List (List Char)
  | [] => [[]]
  | c :: rest =>
    if c = '\n' then [] :: splitLines rest
    else
      match splitLines rest with
      | [] => [[c]]
      | l :: ls => (c :: l) :: ls

/-- Split a line at the first `": "` separator, when present (the
semantics of `splitOn ": "` restricted to its first break). -/
def splitColonSpace : List Char → Option (List Char × List Char)
  | [] => none
  | c :: rest =>
    if c = ':' then
      match rest with
      | ' ' :: v => some ([], v)
      | _ => (splitColonSpace rest).map fun kv => (c :: kv.1, kv.2)
    else (splitColonSpace rest).map fun kv => (c :: kv.1, kv.2)

/-- Whether a line fragment still contains a `": "` separator. -/
def hasColonSpace (cs : List Char) : Bool :=
  match splitColonSpace cs with
  | some _ => true
  | none => false

/-- Modelled from the spec: the external yaml package's parser on one line
of the flat `key: value` notation the spec describes for the body-merge
field (exactly one `": "` separator, numeric scalar value). -/
def parseYamlLine (line : List Char) : Option (String × JNum) :=
  match splitColonSpace line with
  | none => none
  | some (k, v) =>
    if hasColonSpace v then none
    else
      match parseNumStrict v with
      | some q => some (String.mk k, .num q)
      | none => none

/-- Modelled from the spec: the external yaml package's parser, restricted
to flat string-to-number mappings (the spec's "structured key/value data"
in "whitespace-significant key:value textual notation"); every other
payload is `none`, which the caller treats as empty (the spec's
"best-effort — on parse failure, treat as empty"). -/
def yamlParse (s : String) : Option Obj :=
  if s = "\x7b\x7d" || s = "\x7b\x7d\n" then some []
  else
    let lines := (splitLines s.data).filter (· ≠ [])
    if lines.isEmpty then none
    else lines.mapM parseYamlLine

/-- Modelled from the spec: the external yaml package's serializer for
flat string-to-number mappings, one `key: value` line per entry; the
empty mapping prints as an explicit empty flow mapping. -/
def yamlStringify (o : Obj) : String :=
  if o.isEmpty then "\x7b\x7d\n"
  else String.join (o.map fun kv => kv.1 ++ ": " ++ jnumToString kv.2 ++ "\n")

/-- Embedding of `mergeYamlIntoObject` (src/src/index.ts:822-845): an
empty string is returned unchanged, a parsed mapping is assigned onto
`obj`, and any parse failure falls through to the catch branch (the
source's array-of-maps case collapses into these two because the modelled
parser yields only flat mappings). -/
def mergeYamlIntoObject (obj : Obj) (yamlString : String) : Obj :=
  if yamlString = "" then obj
  else
    match yamlParse yamlString with
    | some parsed => objAssign obj parsed
    | none => obj

/-- The `filter(s => s.enabled).reduce(...)` record built by the
`CHAT_COMPLETION_SETTINGS_READY` handler (src/src/index.ts:859-864). -/
def slidersRecord (sliders : List SliderModel) : Obj :=
  (sliders.filter (·.enabled)).foldl
    (fun acc s =>
      if s.property != "" && !s.value.isNaN then objSet acc s.property s.value
      else acc)
    []

/-- The object the handler serializes back into the body-merge field:
the parsed previous body with the enabled sliders' record assigned over
it (src/src/index.ts:858-865). -/
def mergedBody (sliders : List SliderModel) (body : String) : Obj :=
  objAssign (mergeYamlIntoObject [] body) (slidersRecord sliders)

/-- The request descriptor fields the handler uses
(`ChatCompletionRequestData`). -/
structure RequestData where
  chat_completion_source : String
  custom_include_body : String
deriving DecidableEq, Repr

/-- Embedding of the `CHAT_COMPLETION_SETTINGS_READY` handler
(src/src/index.ts:849-867). -/
def onChatCompletionSettingsReady (cs : List SliderCollection)
    (data : RequestData) : RequestData :=
  if data.chat_completion_source ≠ "custom" then data
  else
    match cs.find? (·.active) with
    | none => data
    | some ac =>
      { data with
        custom_include_body :=
          yamlStringify (mergedBody ac.sliders data.custom_include_body) }

/-- Identifier derived for a slider's live control (`CSS.escape` is
modelled as the identity, which it is on the plain property names used
here; no claim depends on the escaping). -/
def sliderId (property : String) : String :=
  "custom_slider_" ++ property

/-- Embedding of the clamp performed by `renderCompletionSliders` on a
slider it renders (src/src/index.ts:771-777): raise to `parseFloat(min)`,
then lower to `parseFloat(max)`, with JavaScript's NaN-is-never-less
comparison semantics. -/
def clampSlider (s : SliderModel) : SliderModel :=
  let v₁ := if s.value.jlt (parseFloat s.min) then parseFloat s.min else s.value
  let v₂ := if (parseFloat s.max).jlt v₁ then parseFloat s.max else v₁
  { s with value := v₂ }

/-- One live control as rendered: its element id, title text, and the
value shown in both the range and the number input. -/
structure RenderedControl where
  id : String
  title : String
  shownValue : JNum
deriving DecidableEq, Repr

/-- Result of one pass of `renderCompletionSliders` over a slider list:
the slider list afterwards (clamping mutates it in place), the controls
appended to the container, and the document ids taken afterwards. -/
structure RenderResult where
  sliders : List SliderModel
  controls : List RenderedControl
  seen : List String
deriving DecidableEq, Repr

/-- Embedding of the per-slider loop of `renderCompletionSliders`
(src/src/index.ts:766-819): skip disabled or incompletely named sliders
untouched; clamp the rest; skip (after clamping) any slider whose derived
id already exists in the document, tracked by `seen`. -/
def renderGo : List SliderModel → List String → RenderResult
  | [], seen => ⟨[], [], seen⟩
  | s :: rest, seen =>
    if !s.enabled || s.property == "" || s.name == "" then
      let r := renderGo rest seen
      ⟨s :: r.sliders, r.controls, r.seen⟩
    else
      let s' := clampSlider s
      let id := sliderId s.property
      if id ∈ seen then
        let r := renderGo rest seen
        ⟨s' :: r.sliders, r.controls, r.seen⟩
      else
        let r := renderGo rest (id :: seen)
        ⟨s' :: r.sliders, ⟨id, s'.name, s'.value⟩ :: r.controls, r.seen⟩

/-- Embedding of `renderCompletionSliders` at the collection level: the
pass runs over the active collection's sliders, writing the clamped list
back; `seen` is the set of element ids already present in the document. -/
def renderCompletionSliders (cs : List SliderCollection) (seen : List String) :
    List SliderCollection × List RenderedControl :=
  match firstIdx (·.active) cs with
  | none => (cs, [])
  | some ai =>
    let r := renderGo (getC cs ai).sliders seen
    (modifyAt cs ai fun c => { c with sliders := r.sliders }, r.controls)

/-- Swap of two (in-range) positions via the source's temp-variable
assignments. -/
def swapAt (l : List SliderModel) (i j : Nat) : List SliderModel :=
  match l.get? i, l.get? j with
  | some a, some b => modifyAt (modifyAt l i fun _ => b) j fun _ => a
  | _, _ => l

/-- Embedding of the "up" reorder control at row `i`
(src/src/index.ts:701-713). -/
def moveUp (l : List SliderModel) (i : Nat) : List SliderModel :=
  if 0 < i then swapAt l (i - 1) i else l

/-- Embedding of the "down" reorder control at row `i`
(src/src/index.ts:715-727). -/
def moveDown (l : List SliderModel) (i : Nat) : List SliderModel :=
  if i < l.length - 1 then swapAt l i (i + 1) else l

/-- The settings-mutating operations on the collection list reachable
from the UI and the event bridge (the slider-level editing operations
touch neither `active` flags nor `presets`, so they are irrelevant to the
collection-level invariants stated below). -/
inductive Op where
  | create (name : String) : Op
  | delete (confirm : Bool) : Op
  | select (sel : String) : Op
  | importC (name : String) (sliders : List SliderModel) : Op
  | presetChange (P : String) : Op
  | bind (P : String) : Op

/-- Application of one operation to the collection list. -/
def applyOp (cs : List SliderCollection) : Op → List SliderCollection
  | .create name => createCollection cs name
  | .delete confirm => deleteCollection cs confirm
  | .select sel => selectCollection cs sel
  | .importC name sliders => importCollection cs name sliders
  | .presetChange P => presetChanged cs P
  | .bind P => (bindToPreset cs P).settings

/-- States reachable from the initial default settings through the
collection-level operations. -/
inductive Reachable : List SliderCollection → Prop
  | init : Reachable defaultCollections
  | step {cs : List SliderCollection} (op : Op) :
      Reachable cs → Reachable (applyOp cs op)

/-- Total number of occurrences of preset name `P` across all
collections' `presets` lists. -/
def presetCount (cs : List SliderCollection) (P : String) : ℕ :=
  (cs.map fun c => c.presets.count P).sum

/-- Element access with a default, for slider lists. -/
def getS (l : List SliderModel) (i : Nat) : SliderModel :=
  l.getD i default

/-- The base invariant on the settings tree: a non-empty collection list
with exactly one active collection. -/
def SettingsInvariant (cs : List SliderCollection) : Prop :=
  cs ≠ [] ∧ countActive cs = 1

instance : DecidablePred SettingsInvariant := fun cs =>
  inferInstanceAs (Decidable (cs ≠ [] ∧ countActive cs = 1))

/-- Contribution of one collection to `countActive`. -/
def activeBit (c : SliderCollection) : ℕ :=
  if c.active then 1 else 0

/-- Keys of a modelled JavaScript object, in insertion order. -/
def objKeys (o : Obj) : List String :=
  o.map Prod.fst

/-- A slider contributes a `{property: value}` pair for key `p` exactly
when it is enabled, has a non-empty property equal to `p`, and has a
numeric value (the handler's filter and reduce guards). -/
def contrib (p : String) (s : SliderModel) : Bool :=
  s.enabled && ((s.property != "" && !s.value.isNaN) && s.property == p)

/-- The "Temp" slider of the spec's request-preparation scenario. -/
def tempSlider : SliderModel where
  name := "Temp"
  property := "temperature"
  min := "0"
  max := "2"
  step := "0.1"
  value := .num (mkRat 3 2)
  enabled := true

/-- The "Temp" slider with its enabled flag cleared (the spec's second
request-preparation scenario). -/
def tempSliderOff : SliderModel :=
  { tempSlider with enabled := false }

/-- A collection holding only the disabled "Temp" slider. -/
def collTempOff : SliderCollection :=
  { active := true, name := "A", sliders := [tempSliderOff], presets := [] }

/-- A slider with empty name but a valid property, exercising C4's
injection-exclusion clause. -/
def unnamedSlider : SliderModel :=
  { name := "", property := "p", min := "0", max := "1", step := "0.1",
    value := .num (mkRat 1 1), enabled := true }

/-- The clamping scenario slider with bounds [0, 1] and stored value 5. -/
def slider5 : SliderModel :=
  { tempSlider with min := "0", max := "1", value := .num (mkRat 5 1) }

/-- The clamping scenario slider with bounds [0, 1] and stored value -5. -/
def sliderNeg5 : SliderModel :=
  { tempSlider with min := "0", max := "1", value := .num (mkRat (-5) 1) }

section ListLemmas

variable {α β : Type}

theorem length_modifyAt (l : List α) (i : Nat) (f : α → α) :
    (modifyAt l i f).length = l.length := by
  induction l generalizing i with
  | nil => rfl
  | cons x xs ih =>
    cases i with
    | zero => rfl
    | succ n => simpa [modifyAt] using ih n

theorem getD_modifyAt_self (l : List α) (i : Nat) (f : α → α) (d : α)
    (h : i < l.length) : (modifyAt l i f).getD i d = f (l.getD i d) := by
  induction l generalizing i with
  | nil => simp at h
  | cons x xs ih =>
    cases i with
    | zero => rfl
    | succ n => simpa [modifyAt] using ih n (by simpa using h)

theorem getD_modifyAt_ne (l : List α) (i j : Nat) (f : α → α) (d : α)
    (h : i ≠ j) : (modifyAt l i f).getD j d = l.getD j d := by
  induction l generalizing i j with
  | nil => rfl
  | cons x xs ih =>
    cases i with
    | zero =>
      cases j with
      | zero => exact absurd rfl h
      | succ m => rfl
    | succ n =>
      cases j with
      | zero => rfl
      | succ m => simpa [modifyAt] using ih n m (by omega)

theorem getD_map (l : List α) (f : α → β) (i : Nat) (d : β) (d' : α)
    (h : i < l.length) : (l.map f).getD i d = f (l.getD i d') := by
  induction l generalizing i with
  | nil => simp at h
  | cons x xs ih =>
    cases i with
    | zero => rfl
    | succ n => simpa using ih n (by simpa using h)

theorem get?_eq_getD (l : List α) (i : Nat) (d : α) (h : i < l.length) :
    l.get? i = some (l.getD i d) := by
  induction l generalizing i with
  | nil => simp at h
  | cons x xs ih =>
    cases i with
    | zero => rfl
    | succ n => simpa using ih n (by simpa using h)

theorem getD_le_sum (l : List ℕ) (i : Nat) : l.getD i 0 ≤ l.sum := by
  induction l generalizing i with
  | nil => simp
  | cons x xs ih =>
    cases i with
    | zero => simp
    | succ n =>
      calc xs.getD n 0 ≤ xs.sum := ih n
      _ ≤ (x :: xs).sum := by simp

theorem two_getD_le_sum (l : List ℕ) (i j : Nat) (h : i ≠ j) :
    l.getD i 0 + l.getD j 0 ≤ l.sum := by
  induction l generalizing i j with
  | nil => simp
  | cons x xs ih =>
    cases i with
    | zero =>
      cases j with
      | zero => exact absurd rfl h
      | succ m =>
        have := getD_le_sum xs m
        simp only [List.getD_cons_zero, List.getD_cons_succ, List.sum_cons]
        omega
    | succ n =>
      cases j with
      | zero =>
        have := getD_le_sum xs n
        simp only [List.getD_cons_zero, List.getD_cons_succ, List.sum_cons]
        omega
      | succ m =>
        have := ih n m (by omega)
        simp only [List.getD_cons_succ, List.sum_cons]
        omega

end ListLemmas

section FirstIdxLemmas

variable {α : Type} (p : α → Bool)

theorem firstIdx_lt (l : List α) (i : Nat) (h : firstIdx p l = some i) :
    i < l.length := by
  induction l generalizing i with
  | nil => simp [firstIdx] at h
  | cons x xs ih =>
    by_cases hx : p x
    · simp [firstIdx, hx] at h
      simp [← h]
    · simp [firstIdx, hx] at h
      obtain ⟨j, hj, rfl⟩ := h
      have := ih j hj
      simp
      omega

theorem firstIdx_prop (l : List α) (i : Nat) (d : α)
    (h : firstIdx p l = some i) : p (l.getD i d) = true := by
  induction l generalizing i with
  | nil => simp [firstIdx] at h
  | cons x xs ih =>
    by_cases hx : p x
    · simp [firstIdx, hx] at h
      simp [← h, hx]
    · simp [firstIdx, hx] at h
      obtain ⟨j, hj, rfl⟩ := h
      simpa using ih j hj

theorem firstIdx_min (l : List α) (i : Nat) (d : α)
    (h : firstIdx p l = some i) : ∀ j, j < i → p (l.getD j d) = false := by
  induction l generalizing i with
  | nil => simp [firstIdx] at h
  | cons x xs ih =>
    by_cases hx : p x
    · simp [firstIdx, hx] at h
      intro j hj
      omega
    · simp [firstIdx, hx] at h
      obtain ⟨j', hj', rfl⟩ := h
      intro j hj
      cases j with
      | zero => simpa using hx
      | succ m => simpa using ih j' hj' m (by omega)

theorem firstIdx_none (l : List α) (h : firstIdx p l = none) :
    ∀ x ∈ l, p x = false := by
  induction l with
  | nil => simp
  | cons x xs ih =>
    by_cases hx : p x
    · simp [firstIdx, hx] at h
    · intro y hy
      rcases List.mem_cons.mp hy with rfl | hy'
      · simpa using hx
      · exact ih (by simpa [firstIdx, hx] using h) y hy'

theorem firstIdx_isSome_of_mem (l : List α) (x : α) (hx : x ∈ l)
    (hp : p x = true) : (firstIdx p l).isSome := by
  cases h : firstIdx p l with
  | some i => rfl
  | none => exact absurd (firstIdx_none p l h x hx) (by simp [hp])

theorem firstIdx_eq_some_of (l : List α) (i : Nat) (d : α)
    (hi : i < l.length) (hp : p (l.getD i d) = true)
    (hmin : ∀ j, j < i → p (l.getD j d) = false) :
    firstIdx p l = some i := by
  induction l generalizing i with
  | nil => simp at hi
  | cons x xs ih =>
    cases i with
    | zero =>
      simp only [List.getD_cons_zero] at hp
      simp [firstIdx, hp]
    | succ n =>
      have h0 : p x = false := by simpa using hmin 0 (by omega)
      have := ih n (by simpa using hi) (by simpa using hp)
        (fun j hj => by simpa using hmin (j + 1) (by omega))
      simp [firstIdx, h0, this]

end FirstIdxLemmas

section CountActive

theorem countActive_cons (c : SliderCollection) (cs : List SliderCollection) :
    countActive (c :: cs) = activeBit c + countActive cs := by
  simp only [countActive, activeBit, List.filter_cons]
  cases h : c.active <;> simp [h]
  omega

theorem countActive_append (a b : List SliderCollection) :
    countActive (a ++ b) = countActive a + countActive b := by
  simp [countActive, List.filter_append]

theorem countActive_eq_sum (cs : List SliderCollection) :
    countActive cs = (cs.map activeBit).sum := by
  induction cs with
  | nil => rfl
  | cons c rest ih => simp [countActive_cons, ih]

theorem countActive_deactivateAll (cs : List SliderCollection) :
    countActive (deactivateAll cs) = 0 := by
  induction cs with
  | nil => rfl
  | cons c rest ih =>
    simpa [deactivateAll, countActive_cons, activeBit] using ih

theorem countActive_eq_zero_iff (cs : List SliderCollection) :
    countActive cs = 0 ↔ ∀ c ∈ cs, c.active = false := by
  induction cs with
  | nil => simp [countActive]
  | cons c rest ih =>
    rw [countActive_cons]
    constructor
    · intro h y hy
      rcases List.mem_cons.mp hy with rfl | hy'
      · have : activeBit y = 0 := by omega
        simpa [activeBit] using this
      · exact (ih.mp (by omega)) y hy'
    · intro h
      have h0 : activeBit c = 0 := by simp [activeBit, h c (by simp)]
      have h1 : countActive rest = 0 := ih.mpr fun y hy => h y (by simp [hy])
      omega

theorem countActive_modifyAt (cs : List SliderCollection) (i : Nat)
    (f : SliderCollection → SliderCollection) (h : i < cs.length) :
    countActive (modifyAt cs i f) + activeBit (getC cs i) =
      countActive cs + activeBit (f (getC cs i)) := by
  induction cs generalizing i with
  | nil => simp at h
  | cons c rest ih =>
    cases i with
    | zero => simp [modifyAt, countActive_cons, getC]; omega
    | succ n =>
      have := ih n (by simpa using h)
      simp only [modifyAt, countActive_cons, getC, List.getD_cons_succ] at *
      omega

theorem countActive_eraseIdx (cs : List SliderCollection) (i : Nat)
    (h : i < cs.length) :
    countActive (cs.eraseIdx i) + activeBit (getC cs i) = countActive cs := by
  induction cs generalizing i with
  | nil => simp at h
  | cons c rest ih =>
    cases i with
    | zero => simp [List.eraseIdx, countActive_cons, getC]; omega
    | succ n =>
      have := ih n (by simpa using h)
      simp only [List.eraseIdx, countActive_cons, getC, List.getD_cons_succ] at *
      omega

theorem unique_active (cs : List SliderCollection) (ai j : Nat)
    (hcount : countActive cs = 1) (hai : ai < cs.length)
    (hact : (getC cs ai).active = true) (hj : j < cs.length) (hne : j ≠ ai) :
    (getC cs j).active = false := by
  have hsum : (cs.map activeBit).sum = 1 := by
    rw [← countActive_eq_sum]; exact hcount
  have hbit_ai : (cs.map activeBit).getD ai 0 = 1 := by
    rw [getD_map cs activeBit ai 0 default hai]
    simp [activeBit, getC] at *
    simp [hact]
  have htwo := two_getD_le_sum (cs.map activeBit) ai j (by omega)
  have hbit_j : (cs.map activeBit).getD j 0 = activeBit (getC cs j) :=
    getD_map cs activeBit j 0 default hj
  rw [hsum, hbit_ai] at htwo
  have : activeBit (getC cs j) = 0 := by omega
  simpa [activeBit] using this

end CountActive

section InvariantPreservation

theorem SettingsInvariant_createCollection (cs : List SliderCollection)
    (name : String) (hinv : SettingsInvariant cs) (hname : name ≠ "")
    (hfresh : cs.any (·.name == name) = false) :
    SettingsInvariant (createCollection cs name) := by
  unfold createCollection
  rw [if_neg hname, if_neg (by simp [hfresh])]
  constructor
  · simp
  · rw [countActive_append, countActive_deactivateAll]
    simp [countActive_cons, activeBit, countActive]

theorem SettingsInvariant_importCollection (cs : List SliderCollection)
    (name : String) (sliders : List SliderModel) (hinv : SettingsInvariant cs)
    (hname : name ≠ "") (hfresh : cs.any (·.name == name) = false) :
    SettingsInvariant (importCollection cs name sliders) := by
  unfold importCollection processImport
  rw [if_neg hname, if_neg (by simp [hfresh])]
  constructor
  · simp
  · rw [countActive_append, countActive_deactivateAll]
    simp [countActive_cons, activeBit, countActive]

theorem SettingsInvariant_selectCollection (cs : List SliderCollection)
    (sel : String) (hne : cs ≠ [])
    (huniq : (cs.filter fun c => c.name == sel).length = 1) :
    SettingsInvariant (selectCollection cs sel) := by
  constructor
  · simpa [selectCollection] using hne
  · have : ∀ l : List SliderCollection,
        countActive (selectCollection l sel) =
          (l.filter fun c => c.name == sel).length := by
      intro l
      induction l with
      | nil => rfl
      | cons c rest ih =>
        simp only [selectCollection, List.map_cons, List.filter_cons] at *
        rw [countActive_cons, ih]
        by_cases h : c.name = sel <;> simp [h, activeBit] <;> omega
    rw [this, huniq]

theorem length_eraseIdx_add_one {α : Type} (l : List α) (i : Nat)
    (h : i < l.length) : (l.eraseIdx i).length + 1 = l.length := by
  induction l generalizing i with
  | nil => simp at h
  | cons x xs ih =>
    cases i with
    | zero => simp [List.eraseIdx]
    | succ n => simpa [List.eraseIdx] using ih n (by simpa using h)

theorem SettingsInvariant_deleteCollection (cs : List SliderCollection)
    (hinv : SettingsInvariant cs) (hlen : 1 < cs.length) :
    SettingsInvariant (deleteCollection cs true) := by
  obtain ⟨hne, hcount⟩ := hinv
  have hex : ∃ c ∈ cs, c.active = true := by
    by_contra hall
    push_neg at hall
    have : countActive cs = 0 := (countActive_eq_zero_iff cs).mpr
      (fun c hc => by simpa using hall c hc)
    omega
  obtain ⟨c₀, hc₀, hact₀⟩ := hex
  obtain ⟨ai, hai⟩ := Option.isSome_iff_exists.mp
    (firstIdx_isSome_of_mem (·.active) cs c₀ hc₀ (by simpa using hact₀))
  have hailt := firstIdx_lt (·.active) cs ai hai
  have haiact : (getC cs ai).active = true := firstIdx_prop (·.active) cs ai default hai
  have heq : deleteCollection cs true =
      modifyAt (cs.eraseIdx ai) 0 (fun c => { c with active := true }) := by
    unfold deleteCollection
    rw [if_neg (by omega), hai]
    rfl
  rw [heq]
  have herase : countActive (cs.eraseIdx ai) = 0 := by
    have := countActive_eraseIdx cs ai hailt
    simp [activeBit, haiact] at this
    omega
  have hlen' : (cs.eraseIdx ai).length + 1 = cs.length :=
    length_eraseIdx_add_one cs ai hailt
  cases herased : cs.eraseIdx ai with
  | nil => rw [herased] at hlen'; simp at hlen'; omega
  | cons c' rest =>
    constructor
    · simp [modifyAt]
    · rw [herased] at herase
      rw [countActive_cons] at herase
      simp [modifyAt, countActive_cons, activeBit]
      omega

theorem SettingsInvariant_presetChanged (cs : List SliderCollection)
    (P : String) (hinv : SettingsInvariant cs) :
    SettingsInvariant (presetChanged cs P) := by
  obtain ⟨hne, hcount⟩ := hinv
  cases hai : firstIdx (·.active) cs with
  | none =>
    have heq : presetChanged cs P = cs := by
      unfold presetChanged
      rw [hai]
    rw [heq]; exact ⟨hne, hcount⟩
  | some ai =>
    cases hpi : firstIdx (fun c => decide (P ∈ c.presets)) cs with
    | none =>
      have heq : presetChanged cs P = cs := by
        unfold presetChanged
        rw [hai, hpi]
      rw [heq]; exact ⟨hne, hcount⟩
    | some pi =>
      by_cases hpa : pi = ai
      · have heq : presetChanged cs P = cs := by
          unfold presetChanged
          rw [hai, hpi]
          simp [hpa]
        rw [heq]; exact ⟨hne, hcount⟩
      · have heq : presetChanged cs P =
            modifyAt (modifyAt cs pi fun c => { c with active := true }) ai
              fun c => { c with active := false } := by
          unfold presetChanged
          rw [hai, hpi]
          simp [hpa]
        rw [heq]
        have hailt := firstIdx_lt (·.active) cs ai hai
        have hpilt := firstIdx_lt (fun c => decide (P ∈ c.presets)) cs pi hpi
        have haiact : (getC cs ai).active = true :=
          firstIdx_prop (·.active) cs ai default hai
        have hpiinact : (getC cs pi).active = false :=
          unique_active cs ai pi hcount hailt haiact hpilt hpa
        have h₁ := countActive_modifyAt cs pi
          (fun c => { c with active := true }) hpilt
        have hlen₁ : (modifyAt cs pi
            (fun c => { c with active := true })).length = cs.length :=
          length_modifyAt cs pi _
        have h₂ := countActive_modifyAt
          (modifyAt cs pi fun c => { c with active := true }) ai
          (fun c => { c with active := false }) (by omega)
        have hgd : getC (modifyAt cs pi
            fun c => { c with active := true }) ai = getC cs ai := by
          unfold getC
          exact getD_modifyAt_ne cs pi ai _ default hpa
        rw [hgd] at h₂
        constructor
        · intro hnil
          have hl : (modifyAt (modifyAt cs pi
              fun c => { c with active := true }) ai
              fun c => { c with active := false }).length = cs.length := by
            rw [length_modifyAt, hlen₁]
          rw [hnil] at hl
          simp at hl
          exact hne (List.length_eq_zero.mp hl.symm)
        · simp only [activeBit, hpiinact, haiact] at h₁ h₂
          simp at h₁ h₂
          omega

end InvariantPreservation

section SwapLemmas

theorem swapAt_eq (l : List SliderModel) (i j : Nat) (hi : i < l.length)
    (hj : j < l.length) :
    swapAt l i j =
      modifyAt (modifyAt l i fun _ => l.getD j default) j
        fun _ => l.getD i default := by
  unfold swapAt
  rw [get?_eq_getD l i default hi, get?_eq_getD l j default hj]

theorem swapAt_spec (l : List SliderModel) (i j : Nat) (hi : i < l.length)
    (hj : j < l.length) (hne : i ≠ j) :
    (swapAt l i j).length = l.length ∧
    getS (swapAt l i j) i = getS l j ∧
    getS (swapAt l i j) j = getS l i ∧
    ∀ k, k ≠ i → k ≠ j → getS (swapAt l i j) k = getS l k := by
  rw [swapAt_eq l i j hi hj]
  refine ⟨by rw [length_modifyAt, length_modifyAt], ?_, ?_, ?_⟩
  · unfold getS
    rw [getD_modifyAt_ne _ j i _ default (by omega),
      getD_modifyAt_self l i _ default hi]
  · unfold getS
    rw [getD_modifyAt_self _ j _ default (by rw [length_modifyAt]; omega)]
  · intro k hki hkj
    unfold getS
    rw [getD_modifyAt_ne _ j k _ default (by omega),
      getD_modifyAt_ne l i k _ default (by omega)]

end SwapLemmas

/-- C9: triggering the "up" reorder control on the first slider leaves the
sequence unchanged, and the "down" control on the last slider leaves it
unchanged; at any interior index the control swaps exactly the two
adjacent entries and leaves every other entry (and the length) in
place. -/
theorem claim_C9_reorder_swaps (l : List SliderModel) (i : Nat) :
    moveUp l 0 = l ∧
    moveDown l (l.length - 1) = l ∧
    (0 < i → i < l.length →
      (moveUp l i).length = l.length ∧
      getS (moveUp l i) (i - 1) = getS l i ∧
      getS (moveUp l i) i = getS l (i - 1) ∧
      ∀ j, j ≠ i - 1 → j ≠ i → getS (moveUp l i) j = getS l j) ∧
    (i < l.length - 1 →
      (moveDown l i).length = l.length ∧
      getS (moveDown l i) i = getS l (i + 1) ∧
      getS (moveDown l i) (i + 1) = getS l i ∧
      ∀ j, j ≠ i → j ≠ i + 1 → getS (moveDown l i) j = getS l j) := by
  refine ⟨by simp [moveUp], by simp [moveDown], ?_, ?_⟩
  · intro h0 hi
    have heq : moveUp l i = swapAt l (i - 1) i := if_pos h0
    obtain ⟨h₁, h₂, h₃, h₄⟩ := swapAt_spec l (i - 1) i (by omega) hi (by omega)
    exact ⟨by rw [heq]; exact h₁, by rw [heq]; exact h₂,
      by rw [heq]; exact h₃,
      fun j hj₁ hj₂ => by rw [heq]; exact h₄ j hj₁ hj₂⟩
  · intro hi
    have heq : moveDown l i = swapAt l i (i + 1) := if_pos hi
    obtain ⟨h₁, h₂, h₃, h₄⟩ := swapAt_spec l i (i + 1) (by omega) (by omega)
      (by omega)
    exact ⟨by rw [heq]; exact h₁, by rw [heq]; exact h₂,
      by rw [heq]; exact h₃,
      fun j hj₁ hj₂ => by rw [heq]; exact h₄ j hj₁ hj₂⟩

/-- Witness for C9 at a concrete three-slider list and the interior
index 1. -/
theorem claim_C9_reorder_swaps_witness :
    (0 : Nat) < 1 ∧ (1 : Nat) < 3 ∧
    moveUp [{ (default : SliderModel) with name := "a" },
      { (default : SliderModel) with name := "b" },
      { (default : SliderModel) with name := "c" }] 0 =
      [{ (default : SliderModel) with name := "a" },
       { (default : SliderModel) with name := "b" },
       { (default : SliderModel) with name := "c" }] ∧
    getS (moveUp [{ (default : SliderModel) with name := "a" },
      { (default : SliderModel) with name := "b" },
      { (default : SliderModel) with name := "c" }] 1) 0 =
      { (default : SliderModel) with name := "b" } := by
  have h := claim_C9_reorder_swaps
    [{ (default : SliderModel) with name := "a" },
     { (default : SliderModel) with name := "b" },
     { (default : SliderModel) with name := "c" }] 1
  refine ⟨by decide, by decide, h.1, ?_⟩
  rw [(h.2.2.1 (by decide) (by decide)).2.1]
  decide

/-- C8: when the imported file's content is malformed JSON (`JSON.parse`
throws, modelled by `none`) or parses to a non-array top-level value,
the import handler reports a user-visible error and aborts with the
settings completely unchanged. -/
theorem claim_C8_import_error_aborts (cs : List SliderCollection)
    (promptName : String) :
    ((importFileChange cs none promptName).settings = cs ∧
      (importFileChange cs none promptName).error = true ∧
      (importFileChange cs none promptName).imported = false) ∧
    ((importFileChange cs (some .nonArr) promptName).settings = cs ∧
      (importFileChange cs (some .nonArr) promptName).error = true ∧
      (importFileChange cs (some .nonArr) promptName).imported = false) :=
  ⟨⟨rfl, rfl, rfl⟩, ⟨rfl, rfl, rfl⟩⟩

/-- C1: every settings state satisfying the base invariant (non-empty
collection list, exactly one active collection) keeps satisfying it after
create-collection (fresh non-empty name), delete-collection (more than
one collection, confirmed), dropdown activation (the selected name names
exactly one collection, as collection names are unique in the dropdown),
the import of a collection (fresh non-empty name), and the preset-change
reaction. -/
theorem claim_C1_invariant_preservation (cs : List SliderCollection)
    (name sel iname P : String) (sliders : List SliderModel)
    (hinv : SettingsInvariant cs) :
    (name ≠ "" → cs.any (·.name == name) = false →
      SettingsInvariant (createCollection cs name)) ∧
    (1 < cs.length → SettingsInvariant (deleteCollection cs true)) ∧
    ((cs.filter fun c => c.name == sel).length = 1 →
      SettingsInvariant (selectCollection cs sel)) ∧
    (iname ≠ "" → cs.any (·.name == iname) = false →
      SettingsInvariant (importCollection cs iname sliders)) ∧
    SettingsInvariant (presetChanged cs P) :=
  ⟨fun h1 h2 => SettingsInvariant_createCollection cs name hinv h1 h2,
   fun h => SettingsInvariant_deleteCollection cs hinv h,
   fun h => SettingsInvariant_selectCollection cs sel hinv.1 h,
   fun h1 h2 => SettingsInvariant_importCollection cs iname sliders hinv h1 h2,
   SettingsInvariant_presetChanged cs P hinv⟩

/-- Witness for C1 at a concrete two-collection state. -/
theorem claim_C1_invariant_preservation_witness :
    SettingsInvariant
      [{ active := true, name := "A", sliders := [], presets := [] },
       { active := false, name := "B", sliders := [], presets := [] }] ∧
    SettingsInvariant (createCollection
      [{ active := true, name := "A", sliders := [], presets := [] },
       { active := false, name := "B", sliders := [], presets := [] }] "C") ∧
    SettingsInvariant (deleteCollection
      [{ active := true, name := "A", sliders := [], presets := [] },
       { active := false, name := "B", sliders := [], presets := [] }] true) ∧
    SettingsInvariant (selectCollection
      [{ active := true, name := "A", sliders := [], presets := [] },
       { active := false, name := "B", sliders := [], presets := [] }] "B") ∧
    SettingsInvariant (importCollection
      [{ active := true, name := "A", sliders := [], presets := [] },
       { active := false, name := "B", sliders := [], presets := [] }] "D" []) ∧
    SettingsInvariant (presetChanged
      [{ active := true, name := "A", sliders := [], presets := [] },
       { active := false, name := "B", sliders := [], presets := [] }] "P") := by
  have h := claim_C1_invariant_preservation
    [{ active := true, name := "A", sliders := [], presets := [] },
     { active := false, name := "B", sliders := [], presets := [] }]
    "C" "B" "D" "P" [] (by decide)
  exact ⟨by decide, h.1 (by decide) (by decide), h.2.1 (by decide),
    h.2.2.1 (by decide), h.2.2.2.1 (by decide) (by decide), h.2.2.2.2⟩

/-- Counterexample to C3 as stated: a stored state with two collections
both marked active is returned by `getSettings` with both still active
(the code only repairs the zero-active case), so the result does not have
exactly one active member. -/
theorem claim_C3_counterexample :
    ¬ countActive (getSettings (some ⟨some
      [{ active := true, name := "A", sliders := [], presets := [] },
       { active := true, name := "B", sliders := [], presets := [] }]⟩)) = 1 := by
  decide

/-- C3 as amended: `getSettings` always returns a non-empty collection
list with at least one active member (not exactly one: a multi-active
input is returned with all its active flags intact); an absent namespace
yields the single active "Default" collection with empty sliders and
presets; a non-empty list with no active member gets exactly its first
collection activated. -/
theorem claim_C3_getSettings_self_healing :
    (∀ g : Option StoredSettings,
      getSettings g ≠ [] ∧ (getSettings g).any (·.active) = true) ∧
    getSettings none = [defaultCollection] ∧
    (∀ cs : List SliderCollection, cs ≠ [] → (∀ c ∈ cs, c.active = false) →
      getSettings (some ⟨some cs⟩) =
        modifyAt cs 0 (fun c => { c with active := true }) ∧
      countActive (getSettings (some ⟨some cs⟩)) = 1) := by
  refine ⟨?_, rfl, ?_⟩
  · intro g
    match g with
    | none => exact ⟨by decide, by decide⟩
    | some ⟨none⟩ => exact ⟨by decide, by decide⟩
    | some ⟨some cs⟩ =>
      cases cs with
      | nil => exact ⟨by decide, by decide⟩
      | cons c rest =>
        by_cases hact : (c :: rest).any (·.active) = true
        · have heq : getSettings (some ⟨some (c :: rest)⟩) = c :: rest := by
            unfold getSettings
            simp [hact]
          rw [heq]
          exact ⟨by simp, hact⟩
        · have heq : getSettings (some ⟨some (c :: rest)⟩) =
              { c with active := true } :: rest := by
            unfold getSettings
            simp [hact, modifyAt]
          rw [heq]
          constructor
          · simp
          · simp
  · intro cs hne hall
    cases cs with
    | nil => exact absurd rfl hne
    | cons c rest =>
      have hact : ¬ (c :: rest).any (·.active) = true := by
        simp only [List.any_eq_true, not_exists]
        intro x hx
        exact absurd hx.2 (by simp [hall x hx.1])
      have heq : getSettings (some ⟨some (c :: rest)⟩) =
          { c with active := true } :: rest := by
        unfold getSettings
        simp [hact, modifyAt]
      constructor
      · rw [heq]; rfl
      · rw [heq, countActive_cons]
        have h0 : countActive rest = 0 := (countActive_eq_zero_iff rest).mpr
          fun x hx => hall x (by simp [hx])
        simp [activeBit, h0]

/-- Witness for C3's amended repair clause at a concrete one-collection
inactive state. -/
theorem claim_C3_getSettings_self_healing_witness :
    getSettings (some ⟨some
      [{ active := false, name := "A", sliders := [], presets := [] }]⟩) =
      modifyAt [{ active := false, name := "A", sliders := [], presets := [] }]
        0 (fun c => { c with active := true }) ∧
    countActive (getSettings (some ⟨some
      [{ active := false, name := "A", sliders := [], presets := [] }]⟩)) = 1 :=
  claim_C3_getSettings_self_healing.2.2
    [{ active := false, name := "A", sliders := [], presets := [] }]
    (by decide) (by decide)

section PresetCount

theorem presetCount_cons (c : SliderCollection) (cs : List SliderCollection)
    (P : String) :
    presetCount (c :: cs) P = c.presets.count P + presetCount cs P := by
  simp [presetCount]

theorem presetCount_append (a b : List SliderCollection) (P : String) :
    presetCount (a ++ b) P = presetCount a P + presetCount b P := by
  simp [presetCount]

theorem presetCount_map_presets_eq (cs : List SliderCollection)
    (f : SliderCollection → SliderCollection)
    (hf : ∀ c, (f c).presets = c.presets) (P : String) :
    presetCount (cs.map f) P = presetCount cs P := by
  induction cs with
  | nil => rfl
  | cons c rest ih => simp [presetCount_cons, hf, ih]

theorem presetCount_eraseIdx_le (cs : List SliderCollection) (i : Nat)
    (P : String) : presetCount (cs.eraseIdx i) P ≤ presetCount cs P := by
  induction cs generalizing i with
  | nil => simp [List.eraseIdx]
  | cons c rest ih =>
    cases i with
    | zero =>
      simp only [List.eraseIdx, presetCount_cons]
      omega
    | succ n =>
      have := ih n
      simp only [List.eraseIdx, presetCount_cons]
      omega

theorem presetCount_modifyAt (cs : List SliderCollection) (i : Nat)
    (f : SliderCollection → SliderCollection) (P : String)
    (h : i < cs.length) :
    presetCount (modifyAt cs i f) P + (getC cs i).presets.count P =
      presetCount cs P + (f (getC cs i)).presets.count P := by
  induction cs generalizing i with
  | nil => simp at h
  | cons c rest ih =>
    cases i with
    | zero => simp [modifyAt, presetCount_cons, getC]; omega
    | succ n =>
      have := ih n (by simpa using h)
      simp only [modifyAt, presetCount_cons, getC, List.getD_cons_succ] at *
      omega

theorem presetCount_modifyAt_presets_eq (cs : List SliderCollection) (i : Nat)
    (f : SliderCollection → SliderCollection)
    (hf : ∀ c, (f c).presets = c.presets) (P : String) :
    presetCount (modifyAt cs i f) P = presetCount cs P := by
  induction cs generalizing i with
  | nil => rfl
  | cons c rest ih =>
    cases i with
    | zero => simp [modifyAt, presetCount_cons, hf]
    | succ n => simp [modifyAt, presetCount_cons, ih]

theorem count_getC_le_presetCount (cs : List SliderCollection) (i : Nat)
    (P : String) (h : i < cs.length) :
    (getC cs i).presets.count P ≤ presetCount cs P := by
  have hsum : presetCount cs P = (cs.map fun c => c.presets.count P).sum := by
    simp [presetCount]
  have hget : (cs.map fun c => c.presets.count P).getD i 0 =
      (getC cs i).presets.count P :=
    getD_map cs _ i 0 default h
  rw [hsum, ← hget]
  exact getD_le_sum _ i

theorem two_count_le_presetCount (cs : List SliderCollection) (i j : Nat)
    (P : String) (hi : i < cs.length) (hj : j < cs.length) (hne : i ≠ j) :
    (getC cs i).presets.count P + (getC cs j).presets.count P ≤
      presetCount cs P := by
  have hsum : presetCount cs P = (cs.map fun c => c.presets.count P).sum := by
    simp [presetCount]
  have hgi : (cs.map fun c => c.presets.count P).getD i 0 =
      (getC cs i).presets.count P := getD_map cs _ i 0 default hi
  have hgj : (cs.map fun c => c.presets.count P).getD j 0 =
      (getC cs j).presets.count P := getD_map cs _ j 0 default hj
  rw [hsum, ← hgi, ← hgj]
  exact two_getD_le_sum _ i j hne

theorem presetCount_eq_zero_iff (cs : List SliderCollection) (P : String) :
    presetCount cs P = 0 ↔ ∀ c ∈ cs, P ∉ c.presets := by
  induction cs with
  | nil => simp [presetCount]
  | cons c rest ih =>
    rw [presetCount_cons]
    constructor
    · intro h y hy
      rcases List.mem_cons.mp hy with rfl | hy'
      · have : y.presets.count P = 0 := by omega
        exact List.count_eq_zero.mp this
      · exact (ih.mp (by omega)) y hy'
    · intro h
      have h0 : c.presets.count P = 0 :=
        List.count_eq_zero.mpr (h c (by simp))
      have h1 : presetCount rest P = 0 :=
        ih.mpr fun y hy => h y (by simp [hy])
      omega

end PresetCount

section PresetUnique

theorem presetCount_deactivateAll (cs : List SliderCollection) (P : String) :
    presetCount (deactivateAll cs) P = presetCount cs P := by
  unfold deactivateAll
  exact presetCount_map_presets_eq cs (fun c => { c with active := false })
    (fun c => rfl) P

theorem presetCount_createCollection_le (cs : List SliderCollection)
    (name P : String) (h : presetCount cs P ≤ 1) :
    presetCount (createCollection cs name) P ≤ 1 := by
  unfold createCollection
  by_cases h1 : name = ""
  · rwa [if_pos h1]
  · rw [if_neg h1]
    by_cases h2 : cs.any (·.name == name) = true
    · rwa [if_pos h2]
    · rw [if_neg h2, presetCount_append, presetCount_deactivateAll]
      have hz : ∀ c : SliderCollection, c.presets = [] →
          presetCount [c] P = 0 := by
        intro c hc
        simp [presetCount, hc]
      rw [hz _ rfl]
      omega

theorem presetCount_importCollection_le (cs : List SliderCollection)
    (name : String) (sliders : List SliderModel) (P : String)
    (h : presetCount cs P ≤ 1) :
    presetCount (importCollection cs name sliders) P ≤ 1 := by
  unfold importCollection processImport
  by_cases h1 : name = ""
  · rwa [if_pos h1]
  · rw [if_neg h1]
    by_cases h2 : cs.any (·.name == name) = true
    · rwa [if_pos h2]
    · rw [if_neg h2]
      show presetCount (deactivateAll cs ++ [_]) P ≤ 1
      rw [presetCount_append, presetCount_deactivateAll]
      have hz : ∀ c : SliderCollection, c.presets = [] →
          presetCount [c] P = 0 := by
        intro c hc
        simp [presetCount, hc]
      rw [hz _ rfl]
      omega

theorem presetCount_deleteCollection_le (cs : List SliderCollection)
    (confirm : Bool) (P : String) (h : presetCount cs P ≤ 1) :
    presetCount (deleteCollection cs confirm) P ≤ 1 := by
  unfold deleteCollection
  by_cases h1 : cs.length = 1
  · rwa [if_pos h1]
  · rw [if_neg h1]
    cases hai : firstIdx (·.active) cs with
    | none => exact h
    | some ai =>
      cases confirm with
      | false => exact h
      | true =>
        show presetCount (modifyAt (cs.eraseIdx ai) 0 fun c =>
          { c with active := true }) P ≤ 1
        rw [presetCount_modifyAt_presets_eq (cs.eraseIdx ai) 0
          (fun c => { c with active := true }) (fun c => rfl) P]
        exact le_trans (presetCount_eraseIdx_le cs ai P) h

theorem presetCount_selectCollection_le (cs : List SliderCollection)
    (sel P : String) (h : presetCount cs P ≤ 1) :
    presetCount (selectCollection cs sel) P ≤ 1 := by
  unfold selectCollection
  rw [presetCount_map_presets_eq cs
    (fun c => { c with active := c.name == sel }) (fun c => rfl) P]
  exact h

theorem presetCount_presetChanged_le (cs : List SliderCollection)
    (P0 P : String) (h : presetCount cs P ≤ 1) :
    presetCount (presetChanged cs P0) P ≤ 1 := by
  cases hai : firstIdx (·.active) cs with
  | none =>
    have heq : presetChanged cs P0 = cs := by
      unfold presetChanged
      rw [hai]
    rw [heq]; exact h
  | some ai =>
    cases hpi : firstIdx (fun c => decide (P0 ∈ c.presets)) cs with
    | none =>
      have heq : presetChanged cs P0 = cs := by
        unfold presetChanged
        rw [hai, hpi]
      rw [heq]; exact h
    | some pi =>
      by_cases hpa : pi = ai
      · have heq : presetChanged cs P0 = cs := by
          unfold presetChanged
          rw [hai, hpi]
          simp [hpa]
        rw [heq]; exact h
      · have heq : presetChanged cs P0 =
            modifyAt (modifyAt cs pi fun c => { c with active := true }) ai
              fun c => { c with active := false } := by
          unfold presetChanged
          rw [hai, hpi]
          simp [hpa]
        rw [heq,
          presetCount_modifyAt_presets_eq
            (modifyAt cs pi fun c => { c with active := true }) ai
            (fun c => { c with active := false }) (fun c => rfl) P,
          presetCount_modifyAt_presets_eq cs pi
            (fun c => { c with active := true }) (fun c => rfl) P]
        exact h

theorem presetCount_bindToPreset_le (cs : List SliderCollection)
    (P0 : String) (h : ∀ P, presetCount cs P ≤ 1) (P : String) :
    presetCount (bindToPreset cs P0).settings P ≤ 1 := by
  by_cases hP0 : P0 = ""
  · have heq : (bindToPreset cs P0).settings = cs := by
      unfold bindToPreset
      rw [if_pos hP0]
    rw [heq]; exact h P
  · cases hai : firstIdx (·.active) cs with
    | none =>
      have heq : (bindToPreset cs P0).settings = cs := by
        unfold bindToPreset
        rw [if_neg hP0, hai]
      rw [heq]; exact h P
    | some ai =>
      have hailt := firstIdx_lt (·.active) cs ai hai
      cases hpi : firstIdx (fun c => decide (P0 ∈ c.presets)) cs with
      | none =>
        have heq : (bindToPreset cs P0).settings =
            modifyAt cs ai fun c => { c with presets := c.presets ++ [P0] } := by
          unfold bindToPreset
          rw [if_neg hP0, hai, hpi]
        rw [heq]
        have hmod := presetCount_modifyAt cs ai
          (fun c => { c with presets := c.presets ++ [P0] }) P hailt
        by_cases hPP : P = P0
        · subst hPP
          have hzero : presetCount cs P = 0 := (presetCount_eq_zero_iff cs P).mpr
            fun c hc => by
              have := firstIdx_none (fun c => decide (P ∈ c.presets)) cs hpi c hc
              simpa using this
          have hcz : (getC cs ai).presets.count P = 0 := by
            have := count_getC_le_presetCount cs ai P hailt
            omega
          simp only [List.count_append] at hmod
          simp [List.count_singleton] at hmod
          omega
        · have : ((getC cs ai).presets ++ [P0]).count P =
              (getC cs ai).presets.count P := by
            rw [List.count_append]
            simp [List.count_singleton', hPP]
          rw [this] at hmod
          have := h P
          omega
      | some pi =>
        have hpilt := firstIdx_lt (fun c => decide (P0 ∈ c.presets)) cs pi hpi
        have hpimem : P0 ∈ (getC cs pi).presets := by
          have := firstIdx_prop (fun c => decide (P0 ∈ c.presets)) cs pi default hpi
          simpa [getC] using this
        have hmod₁ := presetCount_modifyAt cs pi
          (fun c => { c with presets := c.presets.erase P0 }) P hpilt
        by_cases hpa : pi = ai
        · have heq : (bindToPreset cs P0).settings =
              modifyAt cs pi fun c =>
                { c with presets := c.presets.erase P0 } := by
            unfold bindToPreset
            rw [if_neg hP0, hai, hpi]
            simp [hpa]
          rw [heq]
          by_cases hPP : P = P0
          · subst hPP
            have hcp : ((getC cs pi).presets.erase P).count P =
                (getC cs pi).presets.count P - 1 := List.count_erase_self P _
            have hpos : 1 ≤ (getC cs pi).presets.count P :=
              List.count_pos_iff_mem.mpr hpimem
            rw [hcp] at hmod₁
            have := h P
            omega
          · have hcp : ((getC cs pi).presets.erase P0).count P =
                (getC cs pi).presets.count P :=
              List.count_erase_of_ne hPP _
            rw [hcp] at hmod₁
            have := h P
            omega
        · have heq : (bindToPreset cs P0).settings =
              modifyAt (modifyAt cs pi fun c =>
                { c with presets := c.presets.erase P0 }) ai
                fun c => { c with presets := c.presets ++ [P0] } := by
            unfold bindToPreset
            rw [if_neg hP0, hai, hpi]
            simp [hpa]
          rw [heq]
          have hlen₁ : (modifyAt cs pi fun c =>
              { c with presets := c.presets.erase P0 }).length = cs.length :=
            length_modifyAt cs pi _
          have hgd : getC (modifyAt cs pi fun c =>
              { c with presets := c.presets.erase P0 }) ai = getC cs ai := by
            unfold getC
            exact getD_modifyAt_ne cs pi ai _ default hpa
          have hmod₂ := presetCount_modifyAt
            (modifyAt cs pi fun c => { c with presets := c.presets.erase P0 })
            ai (fun c => { c with presets := c.presets ++ [P0] }) P (by omega)
          rw [hgd] at hmod₂
          by_cases hPP : P = P0
          · subst hPP
            have hcp : ((getC cs pi).presets.erase P).count P =
                (getC cs pi).presets.count P - 1 := List.count_erase_self P _
            have hpos : 1 ≤ (getC cs pi).presets.count P :=
              List.count_pos_iff_mem.mpr hpimem
            rw [hcp] at hmod₁
            simp only [List.count_append] at hmod₂
            simp [List.count_singleton] at hmod₂
            have := h P
            omega
          · have hcp : ((getC cs pi).presets.erase P0).count P =
                (getC cs pi).presets.count P :=
              List.count_erase_of_ne hPP _
            rw [hcp] at hmod₁
            have happ : ((getC cs ai).presets ++ [P0]).count P =
                (getC cs ai).presets.count P := by
              rw [List.count_append]
              simp [List.count_singleton', hPP]
            rw [happ] at hmod₂
            have := h P
            omega

theorem preset_unique_applyOp (cs : List SliderCollection) (op : Op)
    (h : ∀ P, presetCount cs P ≤ 1) :
    ∀ P, presetCount (applyOp cs op) P ≤ 1 := by
  intro P
  cases op with
  | create name => exact presetCount_createCollection_le cs name P (h P)
  | delete confirm => exact presetCount_deleteCollection_le cs confirm P (h P)
  | select sel => exact presetCount_selectCollection_le cs sel P (h P)
  | importC name sliders =>
    exact presetCount_importCollection_le cs name sliders P (h P)
  | presetChange P0 => exact presetCount_presetChanged_le cs P0 P (h P)
  | bind P0 => exact presetCount_bindToPreset_le cs P0 h P

theorem preset_unique_reachable (cs : List SliderCollection)
    (h : Reachable cs) : ∀ P, presetCount cs P ≤ 1 := by
  induction h with
  | init => intro P; simp [presetCount, defaultCollections, defaultCollection]
  | step op _ ih => exact preset_unique_applyOp _ op ih

end PresetUnique

section BindTheorems

theorem bindToPreset_transfer (cs : List SliderCollection) (P : String)
    (ai pi : Nat) (hP : P ≠ "") (hai : firstIdx (·.active) cs = some ai)
    (hpi : firstIdx (fun c => decide (P ∈ c.presets)) cs = some pi)
    (hne : pi ≠ ai) (hcount : presetCount cs P ≤ 1) :
    P ∉ (getC (bindToPreset cs P).settings pi).presets ∧
    (getC (bindToPreset cs P).settings ai).presets.count P = 1 ∧
    (bindToPreset cs P).persisted = true := by
  have hailt := firstIdx_lt (·.active) cs ai hai
  have hpilt := firstIdx_lt (fun c => decide (P ∈ c.presets)) cs pi hpi
  have hpimem : P ∈ (getC cs pi).presets := by
    have := firstIdx_prop (fun c => decide (P ∈ c.presets)) cs pi default hpi
    simpa [getC] using this
  have hcnt_pi : (getC cs pi).presets.count P = 1 := by
    have h1 : 1 ≤ (getC cs pi).presets.count P :=
      List.count_pos_iff_mem.mpr hpimem
    have h2 := count_getC_le_presetCount cs pi P hpilt
    omega
  have hcnt_ai : (getC cs ai).presets.count P = 0 := by
    have := two_count_le_presetCount cs pi ai P hpilt hailt hne
    omega
  have heq : bindToPreset cs P =
      ⟨modifyAt (modifyAt cs pi fun c =>
        { c with presets := c.presets.erase P }) ai
        fun c => { c with presets := c.presets ++ [P] }, true⟩ := by
    unfold bindToPreset
    rw [if_neg hP, hai, hpi]
    simp [hne]
  rw [heq]
  refine ⟨?_, ?_, rfl⟩
  · show P ∉ (getC (modifyAt (modifyAt cs pi fun c =>
      { c with presets := c.presets.erase P }) ai
      fun c => { c with presets := c.presets ++ [P] }) pi).presets
    unfold getC
    rw [getD_modifyAt_ne _ ai pi _ default (by omega),
      getD_modifyAt_self cs pi _ default hpilt]
    show P ∉ ((cs.getD pi default).presets.erase P)
    have hz : ((cs.getD pi default).presets.erase P).count P = 0 := by
      rw [List.count_erase_self]
      unfold getC at hcnt_pi
      omega
    exact List.count_eq_zero.mp hz
  · show (getC (modifyAt (modifyAt cs pi fun c =>
      { c with presets := c.presets.erase P }) ai
      fun c => { c with presets := c.presets ++ [P] }) ai).presets.count P = 1
    unfold getC
    rw [getD_modifyAt_self _ ai _ default (by rw [length_modifyAt]; omega),
      getD_modifyAt_ne cs pi ai _ default hne]
    simp only [List.count_append]
    have h1 : List.count P [P] = 1 := by simp
    simp only [getC] at hcnt_ai
    omega

end BindTheorems

/-- C6: in every reachable settings state a preset name occurs at most
once across all collections' presets lists (so it is bound to at most one
collection); and whenever the selected preset's prior holder differs from
the active collection, bind-to-preset removes the preset from the prior
holder and leaves the active collection holding it exactly once. -/
theorem claim_C6_preset_bound_once :
    (∀ cs : List SliderCollection, Reachable cs →
      ∀ P, presetCount cs P ≤ 1) ∧
    (∀ (cs : List SliderCollection) (P : String) (ai pi : Nat),
      P ≠ "" → firstIdx (·.active) cs = some ai →
      firstIdx (fun c => decide (P ∈ c.presets)) cs = some pi → pi ≠ ai →
      presetCount cs P ≤ 1 →
      P ∉ (getC (bindToPreset cs P).settings pi).presets ∧
      (getC (bindToPreset cs P).settings ai).presets.count P = 1) :=
  ⟨fun cs h => preset_unique_reachable cs h,
   fun cs P ai pi h1 h2 h3 h4 h5 =>
    ⟨(bindToPreset_transfer cs P ai pi h1 h2 h3 h4 h5).1,
     (bindToPreset_transfer cs P ai pi h1 h2 h3 h4 h5).2.1⟩⟩

/-- Witness for C6: the initial state is reachable with every preset
bound at most once, and binding "P1" while collection "B" (index 0) is
active moves it out of prior holder "A" (index 1). -/
theorem claim_C6_preset_bound_once_witness :
    presetCount defaultCollections "P1" ≤ 1 ∧
    ("P1" ∉ (getC (bindToPreset
      [{ active := true, name := "B", sliders := [], presets := [] },
       { active := false, name := "A", sliders := [], presets := ["P1"] }]
      "P1").settings 1).presets ∧
    (getC (bindToPreset
      [{ active := true, name := "B", sliders := [], presets := [] },
       { active := false, name := "A", sliders := [], presets := ["P1"] }]
      "P1").settings 0).presets.count "P1" = 1) :=
  ⟨claim_C6_preset_bound_once.1 defaultCollections Reachable.init "P1",
   claim_C6_preset_bound_once.2
     [{ active := true, name := "B", sliders := [], presets := [] },
      { active := false, name := "A", sliders := [], presets := ["P1"] }]
     "P1" 0 1 (by decide) (by decide) (by decide) (by decide) (by decide)⟩

/-- C10 (implicit): when the active collection itself already holds the
selected preset (and, as in every reachable state, no other collection
does), bind-to-preset removes the preset from the active collection and
re-adds it nowhere — afterwards no collection is bound to it — while
still reaching the save-and-re-render tail of the function. -/
theorem claim_C10_bind_toggles_off (cs : List SliderCollection) (P : String)
    (ai : Nat) (hP : P ≠ "") (hai : firstIdx (·.active) cs = some ai)
    (hmem : P ∈ (getC cs ai).presets) (hcount : presetCount cs P ≤ 1) :
    (∀ c ∈ (bindToPreset cs P).settings, P ∉ c.presets) ∧
    (bindToPreset cs P).persisted = true := by
  have hailt := firstIdx_lt (·.active) cs ai hai
  have hcnt_ai : (getC cs ai).presets.count P = 1 := by
    have h1 : 1 ≤ (getC cs ai).presets.count P :=
      List.count_pos_iff_mem.mpr hmem
    have h2 := count_getC_le_presetCount cs ai P hailt
    omega
  have hpi : firstIdx (fun c => decide (P ∈ c.presets)) cs = some ai := by
    apply firstIdx_eq_some_of _ cs ai default hailt (by simp [getC] at hmem ⊢; exact hmem)
    intro j hj
    have hjlt : j < cs.length := by omega
    have hcnt_j : (getC cs j).presets.count P = 0 := by
      have := two_count_le_presetCount cs ai j P hailt hjlt (by omega)
      omega
    have : P ∉ (getC cs j).presets := by
      intro hmemj
      have := List.count_pos_iff_mem.mpr hmemj
      omega
    simp [getC] at this ⊢
    simpa using this
  have heq : bindToPreset cs P =
      ⟨modifyAt cs ai fun c => { c with presets := c.presets.erase P },
        true⟩ := by
    unfold bindToPreset
    rw [if_neg hP, hai, hpi]
    simp
  rw [heq]
  refine ⟨?_, rfl⟩
  have hzero : presetCount (modifyAt cs ai fun c =>
      { c with presets := c.presets.erase P }) P = 0 := by
    have hmod := presetCount_modifyAt cs ai
      (fun c => { c with presets := c.presets.erase P }) P hailt
    have hcp : ((getC cs ai).presets.erase P).count P =
        (getC cs ai).presets.count P - 1 := List.count_erase_self P _
    rw [hcp] at hmod
    omega
  exact (presetCount_eq_zero_iff _ P).mp hzero

/-- Witness for C10 at a concrete state where the active collection "A"
holds "P1". -/
theorem claim_C10_bind_toggles_off_witness :
    (∀ c ∈ (bindToPreset
      [{ active := true, name := "A", sliders := [], presets := ["P1"] },
       { active := false, name := "B", sliders := [], presets := [] }]
      "P1").settings, "P1" ∉ c.presets) ∧
    (bindToPreset
      [{ active := true, name := "A", sliders := [], presets := ["P1"] },
       { active := false, name := "B", sliders := [], presets := [] }]
      "P1").persisted = true :=
  claim_C10_bind_toggles_off
    [{ active := true, name := "A", sliders := [], presets := ["P1"] },
     { active := false, name := "B", sliders := [], presets := [] }]
    "P1" 0 (by decide) (by decide) (by decide) (by decide)

section ObjLemmas

theorem objLookup_objSet (o : Obj) (k : String) (v : JNum) (q : String) :
    objLookup (objSet o k v) q = if k = q then some v else objLookup o q := by
  induction o with
  | nil =>
    simp only [objSet, objLookup]
  | cons kv rest ih =>
    obtain ⟨k', v'⟩ := kv
    by_cases hk : k' = k
    · subst hk
      simp only [objSet, if_pos rfl, objLookup]
      by_cases hq : k' = q
      · simp [hq]
      · simp [hq]
    · simp only [objSet, if_neg hk, objLookup]
      by_cases hq : k' = q
      · subst hq
        have : ¬ k = k' := fun h => hk h.symm
        simp [this]
      · simp [hq, ih]

theorem objAssign_append (t : Obj) (a b : Obj) :
    objAssign t (a ++ b) = objAssign (objAssign t a) b := by
  induction a generalizing t with
  | nil => rfl
  | cons kv rest ih =>
    obtain ⟨k, v⟩ := kv
    simp only [List.cons_append, objAssign]
    exact ih (objSet t k v)

theorem objLookup_objAssign (t src : Obj) (q : String) :
    objLookup (objAssign t src) q =
      match (src.reverse.filter fun kv => kv.1 == q).head? with
      | some kv => some kv.2
      | none => objLookup t q := by
  induction src using List.reverseRecOn generalizing t with
  | nil => rfl
  | append_singleton l kv ih =>
    obtain ⟨k, v⟩ := kv
    rw [objAssign_append]
    have hsingle : objAssign (objAssign t l) [(k, v)] =
        objSet (objAssign t l) k v := rfl
    rw [hsingle, objLookup_objSet]
    rw [List.reverse_append]
    simp only [List.reverse_singleton, List.singleton_append, List.filter_cons]
    by_cases hk : k = q
    · simp [hk]
    · have : (k == q) = false := by simp [hk]
      simp only [this, Bool.false_eq_true, if_false]
      rw [if_neg hk]
      exact ih t

theorem objKeys_objSet (o : Obj) (k : String) (v : JNum) :
    objKeys (objSet o k v) =
      if k ∈ objKeys o then objKeys o else objKeys o ++ [k] := by
  induction o with
  | nil => simp [objSet, objKeys]
  | cons kv rest ih =>
    obtain ⟨k', v'⟩ := kv
    by_cases hk : k' = k
    · subst hk
      simp [objSet, objKeys]
    · simp only [objSet, if_neg hk, objKeys, List.map_cons] at *
      by_cases hmem : k ∈ objKeys rest
      · simp only [objKeys] at hmem
        rw [if_pos hmem] at ih
        have : k ∈ k' :: List.map Prod.fst rest := by simp [hmem]
        rw [ih, if_pos this]
      · simp only [objKeys] at hmem
        rw [if_neg hmem] at ih
        have hne : ¬ k = k' := fun hh => hk hh.symm
        have : ¬ k ∈ k' :: List.map Prod.fst rest := by
          simp [hmem, hne]
        rw [ih, if_neg this]
        simp

theorem nodup_objKeys_objSet (o : Obj) (k : String) (v : JNum)
    (h : (objKeys o).Nodup) : (objKeys (objSet o k v)).Nodup := by
  rw [objKeys_objSet]
  by_cases hmem : k ∈ objKeys o
  · rwa [if_pos hmem]
  · rw [if_neg hmem]
    rw [List.nodup_append]
    exact ⟨h, List.nodup_singleton k,
      fun a ha hb => by simp at hb; subst hb; exact hmem ha⟩

theorem objLookup_eq_none_iff (o : Obj) (q : String) :
    objLookup o q = none ↔ q ∉ objKeys o := by
  induction o with
  | nil => simp [objLookup, objKeys]
  | cons kv rest ih =>
    obtain ⟨k, v⟩ := kv
    by_cases hk : k = q
    · subst hk
      simp [objLookup, objKeys]
    · have hne : ¬ q = k := fun hh => hk hh.symm
      simp only [objLookup, if_neg hk]
      rw [ih]
      simp [objKeys, hne]

theorem filter_keys_nil (o : Obj) (q : String) (h : q ∉ objKeys o) :
    (o.filter fun kv => kv.1 == q) = [] := by
  induction o with
  | nil => rfl
  | cons kv rest ih =>
    obtain ⟨k, v⟩ := kv
    simp only [objKeys, List.map_cons, List.mem_cons] at h
    push_neg at h
    have hk : (k == q) = false := by
      have hne : ¬ k = q := fun hh => h.1 hh.symm
      simp [hne]
    simp only [List.filter_cons, hk, Bool.false_eq_true, if_false]
    exact ih (by simpa [objKeys] using h.2)

theorem head_filter_reverse_eq_objLookup (o : Obj) (q : String)
    (h : (objKeys o).Nodup) :
    ((o.reverse.filter fun kv => kv.1 == q).head?).map Prod.snd =
      objLookup o q := by
  induction o with
  | nil => simp [objLookup]
  | cons kv rest ih =>
    obtain ⟨k, v⟩ := kv
    simp only [objKeys, List.map_cons, List.nodup_cons] at h
    obtain ⟨hknot, hnodup⟩ := h
    simp only [List.reverse_cons, List.filter_append, List.filter_cons,
      List.filter_nil, objLookup]
    by_cases hk : k = q
    · subst hk
      have hfilter : (rest.reverse.filter fun kv => kv.1 == k) = [] := by
        apply filter_keys_nil
        simpa [objKeys] using hknot
      simp [hfilter]
    · have hbeq : (k == q) = false := by simp [hk]
      simp only [hbeq, Bool.false_eq_true, if_false, List.append_nil]
      rw [if_neg hk]
      exact ih hnodup

theorem objLookup_objAssign_of_isSome (t src : Obj) (q : String)
    (hnodup : (objKeys src).Nodup) (h : objLookup src q ≠ none) :
    objLookup (objAssign t src) q = objLookup src q := by
  rw [objLookup_objAssign]
  have hrev := head_filter_reverse_eq_objLookup src q hnodup
  cases hh : (src.reverse.filter fun kv => kv.1 == q).head? with
  | some kv =>
    rw [hh] at hrev
    rw [show (some kv).map Prod.snd = some kv.2 from rfl] at hrev
    simpa using hrev
  | none =>
    rw [hh] at hrev
    rw [show Option.map Prod.snd (none : Option (String × JNum)) = none
      from rfl] at hrev
    exact absurd hrev.symm h

theorem objLookup_objAssign_of_none (t src : Obj) (q : String)
    (h : objLookup src q = none) :
    objLookup (objAssign t src) q = objLookup t q := by
  rw [objLookup_objAssign]
  have hmem : q ∉ objKeys src := (objLookup_eq_none_iff src q).mp h
  have hfilter : (src.reverse.filter fun kv => kv.1 == q) = [] := by
    apply filter_keys_nil
    simpa [objKeys] using hmem
  simp [hfilter]

end ObjLemmas

section RecordLemmas

theorem foldl_record_lookup (l : List SliderModel) (acc : Obj) (p : String) :
    objLookup (l.foldl (fun acc s =>
      if s.property != "" && !s.value.isNaN then objSet acc s.property s.value
      else acc) acc) p =
      match ((l.filter fun s => (s.property != "" && !s.value.isNaN) &&
          s.property == p).reverse.head?) with
      | some s => some s.value
      | none => objLookup acc p := by
  induction l using List.reverseRecOn generalizing acc with
  | nil => rfl
  | append_singleton l s ih =>
    rw [List.foldl_append, List.filter_append]
    simp only [List.foldl_cons, List.foldl_nil, List.filter_cons,
      List.filter_nil]
    by_cases h1 : (s.property != "" && !s.value.isNaN) = true
    · rw [if_pos h1, objLookup_objSet]
      by_cases h2 : s.property = p
      · have hbeq : (s.property == p) = true := by simp [h2]
        rw [if_pos h2]
        simp [h1, hbeq]
      · have hbeq : (s.property == p) = false := by simp [h2]
        rw [if_neg h2]
        simp only [h1, hbeq, Bool.and_false, Bool.false_eq_true, if_false,
          List.append_nil]
        exact ih acc
    · have h1' : (s.property != "" && !s.value.isNaN) = false := by
        cases hb : (s.property != "" && !s.value.isNaN) with
        | true => exact absurd hb h1
        | false => rfl
      rw [if_neg h1]
      have hcond : ((s.property != "" && !s.value.isNaN) &&
          s.property == p) = false := by
        rw [h1']
        rfl
      simp only [hcond, Bool.false_eq_true, if_false, List.append_nil]
      exact ih acc

theorem filter_enabled_contrib (sliders : List SliderModel) (p : String) :
    ((sliders.filter (·.enabled)).filter fun s =>
      (s.property != "" && !s.value.isNaN) && s.property == p) =
      sliders.filter (contrib p) := by
  induction sliders with
  | nil => rfl
  | cons s rest ih =>
    simp only [List.filter_cons]
    by_cases he : s.enabled = true
    · simp only [he, if_true, List.filter_cons, contrib, Bool.true_and]
      by_cases hc : ((s.property != "" && !s.value.isNaN) &&
          s.property == p) = true
      · simp only [hc, if_true]
        rw [ih]
      · simp only [Bool.not_eq_true] at hc
        simp only [hc, Bool.false_eq_true, if_false]
        rw [ih]
    · have he' : s.enabled = false := by simpa using he
      simp only [he', Bool.false_eq_true, if_false, contrib,
        Bool.false_and]
      rw [ih]

theorem slidersRecord_lookup (sliders : List SliderModel) (p : String) :
    objLookup (slidersRecord sliders) p =
      match ((sliders.filter (contrib p)).reverse.head?) with
      | some s => some s.value
      | none => none := by
  unfold slidersRecord
  rw [foldl_record_lookup, filter_enabled_contrib]
  rfl

theorem nodup_objKeys_slidersRecord (sliders : List SliderModel) :
    (objKeys (slidersRecord sliders)).Nodup := by
  unfold slidersRecord
  generalize sliders.filter (·.enabled) = l
  have haux : ∀ (l : List SliderModel) (acc : Obj), (objKeys acc).Nodup →
      (objKeys (l.foldl (fun acc s =>
        if s.property != "" && !s.value.isNaN then
          objSet acc s.property s.value
        else acc) acc)).Nodup := by
    intro l
    induction l with
    | nil => intro acc h; exact h
    | cons s rest ih =>
      intro acc h
      simp only [List.foldl_cons]
      by_cases hc : (s.property != "" && !s.value.isNaN) = true
      · rw [if_pos hc]
        exact ih _ (nodup_objKeys_objSet acc s.property s.value h)
      · rw [if_neg hc]
        exact ih acc h
  exact haux l [] (by simp [objKeys])

theorem mergedBody_lookup_of_contrib_key (sliders : List SliderModel)
    (body : String) (p : String)
    (h : objLookup (slidersRecord sliders) p ≠ none) :
    objLookup (mergedBody sliders body) p =
      objLookup (slidersRecord sliders) p := by
  unfold mergedBody
  exact objLookup_objAssign_of_isSome _ _ p
    (nodup_objKeys_slidersRecord sliders) h

end RecordLemmas

/-- C2: with the single enabled "Temp" slider and custom completion
source, the handler rewrites an empty body-merge field so that parsing it
back yields exactly `{temperature: 1.5}`; in general every enabled slider
with a non-empty property and numeric value contributes its property as a
key of the merged body, the value stored there comes from the sliders'
record (overwriting any colliding key of the parsed previous body), and
when the slider is the only contributor for its property the stored value
is its own. -/
theorem claim_C2_request_injection :
    (yamlParse ((onChatCompletionSettingsReady
      [{ active := true, name := "A", sliders := [tempSlider], presets := [] }]
      { chat_completion_source := "custom",
        custom_include_body := "" }).custom_include_body) =
      some [("temperature", JNum.num (mkRat 3 2))]) ∧
    (∀ (sliders : List SliderModel) (body : String) (s : SliderModel),
      s ∈ sliders → contrib s.property s = true →
      objLookup (mergedBody sliders body) s.property ≠ none) ∧
    (∀ (sliders : List SliderModel) (body p : String),
      objLookup (slidersRecord sliders) p ≠ none →
      objLookup (mergedBody sliders body) p =
        objLookup (slidersRecord sliders) p) ∧
    (∀ (sliders : List SliderModel) (body : String) (s : SliderModel),
      s ∈ sliders → contrib s.property s = true →
      (∀ t ∈ sliders, contrib s.property t = true → t = s) →
      objLookup (mergedBody sliders body) s.property = some s.value) := by
  have hkey : ∀ (sliders : List SliderModel) (s : SliderModel),
      s ∈ sliders → contrib s.property s = true →
      objLookup (slidersRecord sliders) s.property ≠ none := by
    intro sliders s hs hc
    rw [slidersRecord_lookup]
    have hmem : s ∈ sliders.filter (contrib s.property) :=
      List.mem_filter.mpr ⟨hs, hc⟩
    have hne : sliders.filter (contrib s.property) ≠ [] :=
      List.ne_nil_of_mem hmem
    cases hh : (sliders.filter (contrib s.property)).reverse.head? with
    | some t => simp
    | none =>
      rw [List.head?_eq_none_iff] at hh
      exact absurd (List.reverse_eq_nil_iff.mp hh) hne
  refine ⟨by decide, ?_, ?_, ?_⟩
  · intro sliders body s hs hc
    rw [mergedBody_lookup_of_contrib_key sliders body s.property
      (hkey sliders s hs hc)]
    exact hkey sliders s hs hc
  · intro sliders body p h
    exact mergedBody_lookup_of_contrib_key sliders body p h
  · intro sliders body s hs hc huniq
    rw [mergedBody_lookup_of_contrib_key sliders body s.property
      (hkey sliders s hs hc)]
    rw [slidersRecord_lookup]
    have hmem : s ∈ sliders.filter (contrib s.property) :=
      List.mem_filter.mpr ⟨hs, hc⟩
    cases hh : (sliders.filter (contrib s.property)).reverse.head? with
    | none =>
      rw [List.head?_eq_none_iff] at hh
      exact absurd (List.reverse_eq_nil_iff.mp hh)
        (List.ne_nil_of_mem hmem)
    | some t =>
      have ht : t ∈ (sliders.filter (contrib s.property)).reverse :=
        List.mem_of_mem_head? hh
      rw [List.mem_reverse] at ht
      obtain ⟨ht_mem, ht_c⟩ := List.mem_filter.mp ht
      rw [huniq t ht_mem ht_c]

/-- Witness for C2's universally quantified clauses at the concrete
single-slider state. -/
theorem claim_C2_request_injection_witness :
    objLookup (mergedBody [tempSlider] "") "temperature" ≠ none ∧
    objLookup (mergedBody [tempSlider] "") "temperature" =
      objLookup (slidersRecord [tempSlider]) "temperature" ∧
    objLookup (mergedBody [tempSlider] "") "temperature" =
      some tempSlider.value :=
  ⟨claim_C2_request_injection.2.1 [tempSlider] "" tempSlider (by decide)
    (by decide),
   claim_C2_request_injection.2.2.1 [tempSlider] "" "temperature"
    (by decide),
   claim_C2_request_injection.2.2.2 [tempSlider] "" tempSlider (by decide)
    (by decide) (by decide)⟩

/-- Counterexample to C5 as stated: with the single "Temp" slider disabled
and custom completion source, the handler still reassigns the body-merge
field to the re-serialization of its parsed content, so a textually
non-canonical input (here: one with a trailing blank line) comes back
changed, not "unchanged from its input value". -/
theorem claim_C5_counterexample :
    ¬ ((onChatCompletionSettingsReady [collTempOff]
      { chat_completion_source := "custom",
        custom_include_body := "temperature: 1.5\n\n" }).custom_include_body =
      "temperature: 1.5\n\n") := by
  decide

/-- C5 as amended: when no slider of the active collection is enabled,
the handler adds no slider pair, but it does overwrite the body-merge
field with the serialization of the field's parsed content (rather than
leaving the text untouched); the parsed data is unchanged, the raw text
only survives up to re-serialization. -/
theorem claim_C5_no_slider_no_injection (cs : List SliderCollection)
    (data : RequestData) (ac : SliderCollection)
    (hsrc : data.chat_completion_source = "custom")
    (hac : cs.find? (·.active) = some ac)
    (hdis : ∀ s ∈ ac.sliders, s.enabled = false) :
    (onChatCompletionSettingsReady cs data).custom_include_body =
      yamlStringify (mergeYamlIntoObject [] data.custom_include_body) := by
  have hfilter : ac.sliders.filter (·.enabled) = [] := by
    rw [List.filter_eq_nil]
    intro a ha
    simp [hdis a ha]
  have hrec : slidersRecord ac.sliders = [] := by
    unfold slidersRecord
    rw [hfilter]
    rfl
  have heq : onChatCompletionSettingsReady cs data =
      { data with custom_include_body :=
          yamlStringify (mergedBody ac.sliders data.custom_include_body) } := by
    unfold onChatCompletionSettingsReady
    rw [if_neg (by simp [hsrc]), hac]
  rw [heq]
  show yamlStringify (mergedBody ac.sliders data.custom_include_body) = _
  unfold mergedBody
  rw [hrec]
  rfl

/-- Witness for C5's amended statement at the concrete disabled-"Temp"
state. -/
theorem claim_C5_no_slider_no_injection_witness :
    (onChatCompletionSettingsReady [collTempOff]
      { chat_completion_source := "custom",
        custom_include_body := "temperature: 1.5\n\n" }).custom_include_body =
      yamlStringify (mergeYamlIntoObject [] "temperature: 1.5\n\n") :=
  claim_C5_no_slider_no_injection [collTempOff]
    { chat_completion_source := "custom",
      custom_include_body := "temperature: 1.5\n\n" }
    collTempOff rfl (by decide) (by decide)

section RenderLemmas

theorem renderGo_cons_skip (s : SliderModel) (l : List SliderModel)
    (seen : List String)
    (h : (!s.enabled || s.property == "" || s.name == "") = true) :
    renderGo (s :: l) seen =
      ⟨s :: (renderGo l seen).sliders, (renderGo l seen).controls,
        (renderGo l seen).seen⟩ := by
  simp only [renderGo, h, if_true]

theorem renderGo_cons_dup (s : SliderModel) (l : List SliderModel)
    (seen : List String)
    (hcond : (!s.enabled || s.property == "" || s.name == "") = false)
    (hdup : sliderId s.property ∈ seen) :
    renderGo (s :: l) seen =
      ⟨clampSlider s :: (renderGo l seen).sliders, (renderGo l seen).controls,
        (renderGo l seen).seen⟩ := by
  simp only [renderGo, hcond, Bool.false_eq_true, if_false, hdup, if_true]

theorem renderGo_cons_new (s : SliderModel) (l : List SliderModel)
    (seen : List String)
    (hcond : (!s.enabled || s.property == "" || s.name == "") = false)
    (hdup : sliderId s.property ∉ seen) :
    renderGo (s :: l) seen =
      ⟨clampSlider s ::
          (renderGo l (sliderId s.property :: seen)).sliders,
        ⟨sliderId s.property, (clampSlider s).name, (clampSlider s).value⟩ ::
          (renderGo l (sliderId s.property :: seen)).controls,
        (renderGo l (sliderId s.property :: seen)).seen⟩ := by
  simp only [renderGo, hcond, Bool.false_eq_true, if_false, hdup]

theorem skipCond_eq_false_iff (s : SliderModel) :
    (!s.enabled || s.property == "" || s.name == "") = false ↔
      (s.enabled = true ∧ s.property ≠ "" ∧ s.name ≠ "") := by
  cases hs : s.enabled <;> simp [hs]

theorem renderGo_stored (sliders : List SliderModel) (seen : List String)
    (i : Nat) (hi : i < sliders.length) :
    getS (renderGo sliders seen).sliders i =
      (if (getS sliders i).enabled = true ∧ (getS sliders i).property ≠ "" ∧
          (getS sliders i).name ≠ ""
       then clampSlider (getS sliders i) else getS sliders i) := by
  induction sliders generalizing seen i with
  | nil => simp at hi
  | cons s rest ih =>
    by_cases hcond : (!s.enabled || s.property == "" || s.name == "") = true
    · rw [renderGo_cons_skip s rest seen hcond]
      cases i with
      | zero =>
        have hprop : ¬ (s.enabled = true ∧ s.property ≠ "" ∧ s.name ≠ "") := by
          rw [← skipCond_eq_false_iff]
          simp [hcond]
        simpa [getS] using (if_neg hprop).symm
      | succ n =>
        have := ih seen n (by simpa using hi)
        simpa [getS] using this
    · have hcond' : (!s.enabled || s.property == "" || s.name == "") = false := by
        cases hb : (!s.enabled || s.property == "" || s.name == "") with
        | true => exact absurd hb hcond
        | false => rfl
      have hprop := (skipCond_eq_false_iff s).mp hcond'
      by_cases hdup : sliderId s.property ∈ seen
      · rw [renderGo_cons_dup s rest seen hcond' hdup]
        cases i with
        | zero => simpa [getS] using (if_pos hprop).symm
        | succ n =>
          have := ih seen n (by simpa using hi)
          simpa [getS] using this
      · rw [renderGo_cons_new s rest seen hcond' hdup]
        cases i with
        | zero => simpa [getS] using (if_pos hprop).symm
        | succ n =>
          have := ih (sliderId s.property :: seen) n (by simpa using hi)
          simpa [getS] using this

theorem renderGo_controls_mem (sliders : List SliderModel)
    (seen : List String) (e : RenderedControl)
    (he : e ∈ (renderGo sliders seen).controls) :
    ∃ s, s ∈ sliders ∧ s.enabled = true ∧ s.property ≠ "" ∧ s.name ≠ "" ∧
      e.shownValue = (clampSlider s).value ∧ e.title = s.name ∧
      e.id = sliderId s.property := by
  induction sliders generalizing seen with
  | nil => simp [renderGo] at he
  | cons s rest ih =>
    by_cases hcond : (!s.enabled || s.property == "" || s.name == "") = true
    · rw [renderGo_cons_skip s rest seen hcond] at he
      obtain ⟨t, ht, rest'⟩ := ih seen he
      exact ⟨t, by simp [ht], rest'⟩
    · have hcond' : (!s.enabled || s.property == "" || s.name == "") = false := by
        cases hb : (!s.enabled || s.property == "" || s.name == "") with
        | true => exact absurd hb hcond
        | false => rfl
      have hprop := (skipCond_eq_false_iff s).mp hcond'
      by_cases hdup : sliderId s.property ∈ seen
      · rw [renderGo_cons_dup s rest seen hcond' hdup] at he
        obtain ⟨t, ht, rest'⟩ := ih seen he
        exact ⟨t, by simp [ht], rest'⟩
      · rw [renderGo_cons_new s rest seen hcond' hdup] at he
        rcases List.mem_cons.mp he with rfl | he'
        · refine ⟨s, by simp, hprop.1, hprop.2.1, hprop.2.2, rfl, ?_, rfl⟩
          show (clampSlider s).name = s.name
          rfl
        · obtain ⟨t, ht, rest'⟩ := ih (sliderId s.property :: seen) he'
          exact ⟨t, by simp [ht], rest'⟩

theorem renderGo_append (l₁ l₂ : List SliderModel) (seen : List String) :
    renderGo (l₁ ++ l₂) seen =
      ⟨(renderGo l₁ seen).sliders ++
          (renderGo l₂ (renderGo l₁ seen).seen).sliders,
        (renderGo l₁ seen).controls ++
          (renderGo l₂ (renderGo l₁ seen).seen).controls,
        (renderGo l₂ (renderGo l₁ seen).seen).seen⟩ := by
  induction l₁ generalizing seen with
  | nil => simp [renderGo]
  | cons s rest ih =>
    rw [List.cons_append]
    by_cases hcond : (!s.enabled || s.property == "" || s.name == "") = true
    · rw [renderGo_cons_skip s (rest ++ l₂) seen hcond,
        renderGo_cons_skip s rest seen hcond, ih seen]
      simp
    · have hcond' : (!s.enabled || s.property == "" || s.name == "") = false := by
        cases hb : (!s.enabled || s.property == "" || s.name == "") with
        | true => exact absurd hb hcond
        | false => rfl
      by_cases hdup : sliderId s.property ∈ seen
      · rw [renderGo_cons_dup s (rest ++ l₂) seen hcond' hdup,
          renderGo_cons_dup s rest seen hcond' hdup, ih seen]
        simp
      · rw [renderGo_cons_new s (rest ++ l₂) seen hcond' hdup,
          renderGo_cons_new s rest seen hcond' hdup,
          ih (sliderId s.property :: seen)]
        simp

theorem slidersRecord_skip_empty_property (l₁ l₂ : List SliderModel)
    (s : SliderModel) (h : s.property = "") :
    slidersRecord (l₁ ++ s :: l₂) = slidersRecord (l₁ ++ l₂) := by
  unfold slidersRecord
  rw [List.filter_append, List.filter_append, List.filter_cons]
  by_cases he : s.enabled = true
  · simp only [he, if_true]
    rw [List.foldl_append, List.foldl_append, List.foldl_cons]
    congr 1
    rw [if_neg]
    simp [h]
  · have he' : s.enabled = false := by simpa using he
    simp only [he', Bool.false_eq_true, if_false]

end RenderLemmas

/-- Counterexample to C4 as stated: a slider whose name is empty but
whose property is "p" still has its pair injected into the request body —
the handler's guard checks only `slider.property` and `isNaN`, never the
name. -/
theorem claim_C4_counterexample :
    ¬ (objLookup (mergedBody [unnamedSlider] "") "p" = none) := by
  decide

/-- C4 as amended: a slider with an empty property string is excluded
from request-body injection, and a slider with an empty property or an
empty name is excluded from the live control panel (no control rendered
for it, the rest of the panel unchanged, its stored entry untouched) —
but request-body injection ignores the name field, so an empty name alone
does not exclude a slider from injection. -/
theorem claim_C4_exclusion (pre post : List SliderModel) (s : SliderModel)
    (body : String) (seen : List String) :
    (s.property = "" →
      mergedBody (pre ++ s :: post) body = mergedBody (pre ++ post) body) ∧
    ((s.property = "" ∨ s.name = "") →
      (renderGo (pre ++ s :: post) seen).controls =
        (renderGo (pre ++ post) seen).controls ∧
      (renderGo (pre ++ s :: post) seen).sliders =
        (renderGo pre seen).sliders ++ s ::
          (renderGo post (renderGo pre seen).seen).sliders) := by
  constructor
  · intro h
    unfold mergedBody
    rw [slidersRecord_skip_empty_property pre post s h]
  · intro h
    have hcond : (!s.enabled || s.property == "" || s.name == "") = true := by
      rcases h with h | h <;> simp [h]
    rw [renderGo_append pre (s :: post) seen,
      renderGo_cons_skip s post (renderGo pre seen).seen hcond,
      renderGo_append pre post seen]
    exact ⟨rfl, rfl⟩

/-- Witness for C4's amended statement at a concrete one-slider state. -/
theorem claim_C4_exclusion_witness :
    mergedBody [{ unnamedSlider with property := "" }] "" =
      mergedBody [] "" ∧
    (renderGo [{ unnamedSlider with property := "" }] []).controls =
      (renderGo [] []).controls :=
  ⟨(claim_C4_exclusion [] [] { unnamedSlider with property := "" } "" []).1
    rfl,
   ((claim_C4_exclusion [] [] { unnamedSlider with property := "" } "" []).2
    (Or.inl rfl)).1⟩

theorem clampSlider_clamps (s : SliderModel) (a b v : ℚ)
    (hmin : parseFloat s.min = .num a) (hmax : parseFloat s.max = .num b)
    (hab : a ≤ b) (hv : s.value = .num v) :
    (clampSlider s).value = .num (min b (max a v)) ∧
    a ≤ min b (max a v) ∧ min b (max a v) ≤ b := by
  have hval : (clampSlider s).value =
      (if (parseFloat s.max).jlt
          (if ((s.value).jlt (parseFloat s.min)) = true then parseFloat s.min
           else s.value) = true then parseFloat s.max
       else if ((s.value).jlt (parseFloat s.min)) = true then parseFloat s.min
       else s.value) := by
    unfold clampSlider
    cases hc : (s.value).jlt (parseFloat s.min) <;> simp [hc]
  rw [hval, hmin, hmax, hv]
  refine ⟨?_, le_min hab (le_max_left a v), min_le_left b _⟩
  by_cases hav : v < a
  · have h1 : ((JNum.num v).jlt (JNum.num a)) = true := by
      simp [JNum.jlt, hav]
    rw [if_pos h1]
    have h2 : ¬ ((JNum.num b).jlt (JNum.num a)) = true := by
      simp [JNum.jlt, not_lt.mpr hab]
    rw [if_neg h2]
    rw [max_eq_left (le_of_lt hav), min_eq_right hab]
  · have h1 : ¬ ((JNum.num v).jlt (JNum.num a)) = true := by
      simp [JNum.jlt, hav]
    rw [if_neg h1]
    by_cases hbv : b < v
    · have h2 : ((JNum.num b).jlt (JNum.num v)) = true := by
        simp [JNum.jlt, hbv]
      rw [if_pos h2]
      rw [max_eq_right (le_of_not_lt hav), min_eq_left (le_of_lt hbv)]
    · have h2 : ¬ ((JNum.num b).jlt (JNum.num v)) = true := by
        simp [JNum.jlt, hbv]
      rw [if_neg h2]
      rw [max_eq_right (le_of_not_lt hav), min_eq_right (le_of_not_lt hbv)]

/-- C7: every slider the live panel renders (enabled, non-empty name and
property) has its stored value clamped into
`[parseFloat(min), parseFloat(max)]`, the clamped value is what both the
stored model and the displayed control carry, and concretely with
min "0" / max "1" a stored 5 becomes 1 and a stored -5 becomes 0, in the
stored slider list and in the rendered control alike. -/
theorem claim_C7_render_clamps :
    (∀ (s : SliderModel) (a b v : ℚ), parseFloat s.min = .num a →
      parseFloat s.max = .num b → a ≤ b → s.value = .num v →
      (clampSlider s).value = .num (min b (max a v)) ∧
      a ≤ min b (max a v) ∧ min b (max a v) ≤ b) ∧
    (∀ (sliders : List SliderModel) (seen : List String) (i : Nat),
      i < sliders.length →
      getS (renderGo sliders seen).sliders i =
        (if (getS sliders i).enabled = true ∧ (getS sliders i).property ≠ "" ∧
            (getS sliders i).name ≠ ""
         then clampSlider (getS sliders i) else getS sliders i)) ∧
    (∀ (sliders : List SliderModel) (seen : List String)
        (e : RenderedControl), e ∈ (renderGo sliders seen).controls →
      ∃ s, s ∈ sliders ∧ s.enabled = true ∧ s.property ≠ "" ∧ s.name ≠ "" ∧
        e.shownValue = (clampSlider s).value ∧ e.title = s.name) ∧
    ((clampSlider slider5).value = .num 1 ∧
      (clampSlider sliderNeg5).value = .num 0 ∧
      (renderGo [slider5] []).controls =
        [⟨sliderId "temperature", "Temp", .num 1⟩] ∧
      (renderGo [sliderNeg5] []).controls =
        [⟨sliderId "temperature", "Temp", .num 0⟩] ∧
      (renderGo [slider5] []).sliders = [{ slider5 with value := .num 1 }] ∧
      (renderGo [sliderNeg5] []).sliders =
        [{ sliderNeg5 with value := .num 0 }]) := by
  refine ⟨clampSlider_clamps, renderGo_stored, ?_, by decide⟩
  intro sliders seen e he
  obtain ⟨s, hmem, h1, h2, h3, h4, h5, _⟩ :=
    renderGo_controls_mem sliders seen e he
  exact ⟨s, hmem, h1, h2, h3, h4, h5⟩

/-- Witness for C7's quantified clauses at the concrete clamping
scenario. -/
theorem claim_C7_render_clamps_witness :
    ((clampSlider slider5).value = .num (min 1 (max 0 (mkRat 5 1))) ∧
      (0 : ℚ) ≤ min 1 (max 0 (mkRat 5 1)) ∧
      min 1 (max 0 (mkRat 5 1)) ≤ (1 : ℚ)) ∧
    getS (renderGo [slider5] []).sliders 0 =
      (if (getS [slider5] 0).enabled = true ∧
          (getS [slider5] 0).property ≠ "" ∧ (getS [slider5] 0).name ≠ ""
       then clampSlider (getS [slider5] 0) else getS [slider5] 0) ∧
    (∃ s, s ∈ [slider5] ∧ s.enabled = true ∧ s.property ≠ "" ∧ s.name ≠ "" ∧
      (⟨sliderId "temperature", "Temp", JNum.num 1⟩ :
        RenderedControl).shownValue = (clampSlider s).value ∧
      (⟨sliderId "temperature", "Temp", JNum.num 1⟩ :
        RenderedControl).title = s.name) :=
  ⟨claim_C7_render_clamps.1 slider5 0 1 (mkRat 5 1) (by decide) (by decide)
    (by decide) rfl,
   claim_C7_render_clamps.2.1 [slider5] [] 0 (by decide),
   claim_C7_render_clamps.2.2.1 [slider5] []
    ⟨sliderId "temperature", "Temp", JNum.num 1⟩
    (by rw [claim_C7_render_clamps.2.2.2.2.2.1]; decide)⟩

end CustomSliders
